import Mathlib

/-!
Verification development for the statistics-aggregation engine of
bioimageio.core (file src/bioimageio/core/stat_calculators.py).

Modelling conventions.

Tensors: an xarray DataArray, reduced by a fixed calculator over a fixed
axis subset, is represented by its reduction groups: one list of rational
values per output cell (the elements that are collapsed into that cell),
listed in the flattened order of the non-reduced axes.  Because xarray
tensors are rectangular, every reduction group of one tensor has the same
number of elements; that common number is the quantity the source computes
as n_b = prod(tensor.shape) / prod(reduced_result.shape) and is stored in
the field groupSize.  Rational numbers stand for the exact real values;
numpy dtypes are tracked separately and symbolically in the dtype field.

np.sqrt has no exact rational counterpart, so every function of the source
that applies np.sqrt takes an abstract function sq as an explicit
parameter; theorems are universally quantified over it.

Python dicts are association lists whose update keeps the position of an
existing key and appends new keys; python sets are insertion-ordered
deduplicating lists (the real iteration order of a python set is
unspecified, so any canonical order is a faithful model for counting and
membership facts).
-/

/-- Tensor identifiers (python TensorId, a string newtype). -/
abbrev TensorId := String

/-- Axis identifiers (python AxisId, a string newtype). -/
abbrev AxisId := String

/-- Optional reduction-axis set; none means reduce over every axis. -/
abbrev Axes := Option (List AxisId)

/-- Symbolic numpy floating dtypes (the data model fixes tensor values to be
floating point). -/
inductive DType where
  | float16
  | float32
  | float64
deriving DecidableEq

/-- Width rank used by numpy promotion among floating dtypes. -/
def DType.rank : DType → ℕ
  | DType.float16 => 0
  | DType.float32 => 1
  | DType.float64 => 2

/-- Numpy result dtype of a binary operation on two floating dtypes: the
wider of the two. -/
def DType.promote (a b : DType) : DType :=
  if a.rank ≤ b.rank then b else a

/-- Modelled from the spec: the Measure Descriptors of
bioimageio.core.stat_measures (that module is not under src/).  The spec
describes them as immutable hashable records of scope, kind, tensor_id,
reduction axes and, for percentiles, a rank, with structural equality and
hashing; the derived decidable equality is exactly structural equality. -/
inductive Measure where
  | sampleMean (tensor_id : TensorId) (axes : Axes)
  | sampleVar (tensor_id : TensorId) (axes : Axes)
  | sampleStd (tensor_id : TensorId) (axes : Axes)
  | samplePercentile (n : ℚ) (tensor_id : TensorId) (axes : Axes)
  | datasetMean (tensor_id : TensorId) (axes : Axes)
  | datasetVar (tensor_id : TensorId) (axes : Axes)
  | datasetStd (tensor_id : TensorId) (axes : Axes)
  | datasetPercentile (n : ℚ) (tensor_id : TensorId) (axes : Axes)
deriving DecidableEq

/-- The tensor_id field shared by every Measure constructor. -/
def Measure.tensor_id : Measure → TensorId
  | Measure.sampleMean t _ => t
  | Measure.sampleVar t _ => t
  | Measure.sampleStd t _ => t
  | Measure.samplePercentile _ t _ => t
  | Measure.datasetMean t _ => t
  | Measure.datasetVar t _ => t
  | Measure.datasetStd t _ => t
  | Measure.datasetPercentile _ t _ => t

/-- The axes field shared by every Measure constructor. -/
def Measure.axes : Measure → Axes
  | Measure.sampleMean _ a => a
  | Measure.sampleVar _ a => a
  | Measure.sampleStd _ a => a
  | Measure.samplePercentile _ _ a => a
  | Measure.datasetMean _ a => a
  | Measure.datasetVar _ a => a
  | Measure.datasetStd _ a => a
  | Measure.datasetPercentile _ _ a => a

/-- isinstance(m, DatasetMeasureBase). -/
def Measure.isDataset : Measure → Bool
  | Measure.datasetMean _ _ => true
  | Measure.datasetVar _ _ => true
  | Measure.datasetStd _ _ => true
  | Measure.datasetPercentile _ _ _ => true
  | _ => false

/-- A measure value: the reduced tensor, one rational per output cell. -/
abbrev Val := List ℚ

/-- Warnings emitted through warnings.warn in the source. -/
inductive Warning where
  | naivePercentiles
  | ignoringInitialMeasures (missing : List Measure)
deriving DecidableEq

/-- Python exceptions raised by the source (ValueError) or by failing
assert statements (AssertionError); the two are distinct exception types. -/
inductive PyErr where
  | valueError
  | assertionError
deriving DecidableEq

/-- Python set add: keep the list unchanged when the element is present,
otherwise append it. -/
def listInsert {α : Type} [DecidableEq α] (l : List α) (a : α) : List α :=
  if a ∈ l then l else l ++ [a]

/-- Python dict assignment d[k] = v: replace the value at an existing key
in place, otherwise append the new binding. -/
def dictSet {α β : Type} [DecidableEq α] : List (α × β) → α → β → List (α × β)
  | [], k, v => [(k, v)]
  | (k0, v0) :: rest, k, v =>
      if k0 = k then (k0, v) :: rest else (k0, v0) :: dictSet rest k v

/-- Python dict.update(new): assign every binding of new, left to right. -/
def dictUpdate {α β : Type} [DecidableEq α] (d new : List (α × β)) : List (α × β) :=
  new.foldl (fun acc kv => dictSet acc kv.1 kv.2) d

/-- The keys of an association list. -/
def dictKeys {α β : Type} (d : List (α × β)) : List α :=
  d.map Prod.fst

/-- Python dict(mapping): insert every binding into a fresh dict. -/
def dictOf {α β : Type} [DecidableEq α] (d : List (α × β)) : List (α × β) :=
  dictUpdate [] d

/-- numpy quantile of the values of one reduction group at q in [0, 1],
with the default linear interpolation: on the ascending sort, the virtual
index is q * (count - 1) and the value is interpolated between its floor
and ceiling positions. -/
def npQuantile (q : ℚ) (l : List ℚ) : ℚ :=
  let s := l.insertionSort (· ≤ ·)
  let h := q * ((l.length : ℚ) - 1)
  let lo := (⌊h⌋).toNat
  let hi := (⌈h⌉).toNat
  s.getD lo 0 + (h - (⌊h⌋ : ℚ)) * (s.getD hi 0 - s.getD lo 0)

/-- A tensor as seen by one calculator: symbolic dtype, the common size of
every reduction group (n_b = prod(tensor.shape) / prod(reduced.shape) in
the source) and the reduction groups themselves, one per output cell. -/
structure NpTensor where
  dtype : DType
  groupSize : ℕ
  groups : List (List ℚ)
deriving DecidableEq

/-- Rectangularity of an xarray tensor: every reduction group has the
common size recorded in groupSize. -/
def NpTensor.uniform (t : NpTensor) : Prop :=
  ∀ g ∈ t.groups, g.length = t.groupSize

instance (t : NpTensor) : Decidable t.uniform := by
  unfold NpTensor.uniform; infer_instance

/-- Concatenation of two tensors along one of the reduced axes: the cells
coincide and each reduction group is the concatenation of the two parts. -/
def NpTensor.concatReduced (t1 t2 : NpTensor) : NpTensor :=
  { dtype := t1.dtype.promote t2.dtype,
    groupSize := t1.groupSize + t2.groupSize,
    groups := List.zipWith (· ++ ·) t1.groups t2.groups }

/-- tensor.mean(dim=axes): per output cell, the sum of the reduction group
divided by its element count. -/
def tensorMean (t : NpTensor) : Val :=
  t.groups.map (fun g => g.sum / (g.length : ℚ))

/-- ((tensor - mean) ** 2).sum(dim=axes): per output cell, the sum of
squared deviations from the cell mean. -/
def tensorM2 (t : NpTensor) : Val :=
  t.groups.map (fun g => (g.map (fun x => (x - g.sum / (g.length : ℚ)) ^ 2)).sum)

/-- A sample: mapping from tensor identifier to tensor (sample.data). -/
abbrev Sample := TensorId → NpTensor

namespace MeanCalculator

/-- The mutable state of MeanCalculator: self._n and self._mean. -/
structure State where
  n : ℕ
  mean : Option Val
deriving DecidableEq

/-- State after __init__: n = 0, mean = None. -/
def State.init : State := { n := 0, mean := none }

/-- MeanCalculator._update_impl.  The astype(np.float64) of the caller is
exact on the modelled rational values.  n_b is the reduced voxel count
prod(tensor.shape) / prod(tensor_mean.shape), the groupSize field. -/
def updateImpl (st : State) (t : NpTensor) : State :=
  let tensor_mean := tensorMean t
  let n_b := t.groupSize
  match st.mean with
  | none => { n := n_b, mean := some tensor_mean }
  | some mean_old =>
      let n := st.n + n_b
      { n := n,
        mean := some (List.zipWith
          (fun a b => ((st.n : ℚ) * a + (n_b : ℚ) * b) / (n : ℚ)) mean_old tensor_mean) }

/-- MeanCalculator.update(sample). -/
def update (tid : TensorId) (st : State) (sample : Sample) : State :=
  updateImpl st (sample tid)

/-- MeanCalculator.compute(sample): the mean of this sample alone. -/
def compute (tid : TensorId) (axes : Axes) (sample : Sample) : List (Measure × Val) :=
  [(Measure.sampleMean tid axes, tensorMean (sample tid))]

/-- MeanCalculator.finalize(): empty if no sample was observed, else the
dataset mean. -/
def finalize (tid : TensorId) (axes : Axes) (st : State) : List (Measure × Val) :=
  match st.mean with
  | none => []
  | some m => [(Measure.datasetMean tid axes, m)]

end MeanCalculator

namespace MeanVarStdCalculator

/-- The mutable state of MeanVarStdCalculator: self._n, self._mean and
self._m2; the source maintains the invariant that _mean and _m2 are None
together (asserted in update), so they are modelled as one option. -/
structure State where
  n : ℕ
  acc : Option (Val × Val)
deriving DecidableEq

/-- State after __init__. -/
def State.init : State := { n := 0, acc := none }

/-- MeanVarStdCalculator.update(sample), acting on the tensor selected by
the calculator.  The astype(np.float64) is exact on rational values. -/
def updateTensor (st : State) (t : NpTensor) : State :=
  let mean_b := tensorMean t
  let n_b := t.groupSize
  let m2_b := tensorM2 t
  match st.acc with
  | none => { n := n_b, acc := some (mean_b, m2_b) }
  | some ma =>
      let n := st.n + n_b
      let mean := List.zipWith
        (fun a b => ((st.n : ℚ) * a + (n_b : ℚ) * b) / (n : ℚ)) ma.1 mean_b
      let d := List.zipWith (fun b a => b - a) mean_b ma.1
      let m2 := List.zipWith
        (fun s dd => s + dd ^ 2 * (st.n : ℚ) * (n_b : ℚ) / (n : ℚ))
        (List.zipWith (· + ·) ma.2 m2_b) d
      { n := n, acc := some (mean, m2) }

/-- MeanVarStdCalculator.update(sample). -/
def update (tid : TensorId) (st : State) (sample : Sample) : State :=
  updateTensor st (sample tid)

/-- MeanVarStdCalculator.compute(sample) with numpy dtype bookkeeping.
The incoming tensor is used as is (there is no astype in compute); the
mean keeps the tensor dtype, c = tensor - mean promotes the two, the
division by n and np.sqrt keep the floating dtype.  n is tensor.size when
axes is None and the product of the reduced axis sizes otherwise; both
equal groupSize. -/
def computeD (sq : ℚ → ℚ) (tid : TensorId) (axes : Axes) (sample : Sample) :
    List (Measure × (DType × Val)) :=
  let tensor := sample tid
  let meanD := tensor.dtype
  let mean := tensorMean tensor
  let cD := tensor.dtype.promote meanD
  let n := tensor.groupSize
  let varD := cD.promote cD
  let var := tensor.groups.map
    (fun g => (g.map (fun x => (x - g.sum / (g.length : ℚ)) ^ 2)).sum / (n : ℚ))
  let stdD := varD
  [(Measure.sampleMean tid axes, (meanD, mean)),
   (Measure.sampleVar tid axes, (varD, var)),
   (Measure.sampleStd tid axes, (stdD, var.map sq))]

/-- MeanVarStdCalculator.compute(sample), values only. -/
def compute (sq : ℚ → ℚ) (tid : TensorId) (axes : Axes) (sample : Sample) :
    List (Measure × Val) :=
  (computeD sq tid axes sample).map (fun e => (e.1, e.2.2))

/-- MeanVarStdCalculator.finalize(): var = m2 / n, std = sqrt(var). -/
def finalize (sq : ℚ → ℚ) (tid : TensorId) (axes : Axes) (st : State) :
    List (Measure × Val) :=
  match st.acc with
  | none => []
  | some ma =>
      let var := ma.2.map (fun v => v / (st.n : ℚ))
      [(Measure.datasetMean tid axes, ma.1),
       (Measure.datasetVar tid axes, var),
       (Measure.datasetStd tid axes, var.map sq)]

end MeanVarStdCalculator

namespace SamplePercentilesCalculator

/-- SamplePercentilesCalculator.compute(sample): stateless; for each
requested rank n the quantile at q = n / 100 of each reduction group. -/
def compute (tid : TensorId) (axes : Axes) (ns : List ℚ) (sample : Sample) :
    List (Measure × Val) :=
  ns.map (fun nn =>
    (Measure.samplePercentile nn tid axes,
     (sample tid).groups.map (fun g => npQuantile (nn / 100) g)))

end SamplePercentilesCalculator

namespace MeanPercentilesCalculator

/-- The mutable state of MeanPercentilesCalculator: self._n and
self._estimates (one reduced tensor per requested rank). -/
structure State where
  n : ℕ
  estimates : Option (List Val)
deriving DecidableEq

/-- State after __init__. -/
def State.init : State := { n := 0, estimates := none }

/-- MeanPercentilesCalculator.update(sample): weighted running average of
the per-sample quantile estimates, weighted by the reduced voxel count
n = prod(tensor.shape) / prod(sample_estimates.shape[1:]). -/
def update (tid : TensorId) (ns : List ℚ) (st : State) (sample : Sample) : State :=
  let tensor := sample tid
  let sample_estimates :=
    ns.map (fun nn => tensor.groups.map (fun g => npQuantile (nn / 100) g))
  let n := tensor.groupSize
  match st.estimates with
  | none => { n := st.n + n, estimates := some sample_estimates }
  | some old =>
      { n := st.n + n,
        estimates := some (List.zipWith
          (fun o s => List.zipWith
            (fun a b => ((st.n : ℚ) * a + (n : ℚ) * b) / ((st.n : ℚ) + (n : ℚ))) o s)
          old sample_estimates) }

/-- MeanPercentilesCalculator.finalize(): empty and silent if no sample
was observed; otherwise warns that the estimate is naive and returns one
dataset percentile per rank. -/
def finalize (tid : TensorId) (axes : Axes) (ns : List ℚ) (st : State) :
    List (Measure × Val) × List Warning :=
  match st.estimates with
  | none => ([], [])
  | some ests =>
      (List.zipWith (fun nn e => (Measure.datasetPercentile nn tid axes, e)) ns ests,
       [Warning.naivePercentiles])

end MeanPercentilesCalculator

namespace CrickPercentilesCalculator

/-- The mutable state of CrickPercentilesCalculator: self._digest (one
TDigest per output cell, modelled by the list of values it received) and
self._indices, the itertools.product iterator over output-cell indices,
modelled by the list of indices it has yet to yield.  A TDigest receives
whole reduction groups through tensor.isel. -/
structure State where
  digests : Option (List (List ℚ))
  indices : Option (List ℕ)
deriving DecidableEq

/-- State after __init__. -/
def State.init : State := { digests := none, indices := none }

/-- The enumerate loop of update: digest i receives the reduction group at
cell index idx for every (i, idx) yielded by the indices iterator. -/
def feed (ds : List (List ℚ)) (idxs : List ℕ) (t : NpTensor) : List (List ℚ) :=
  ((List.range idxs.length).zip idxs).foldl
    (fun acc p => acc.set p.1 (acc.getD p.1 [] ++ t.groups.getD p.2 [])) ds

/-- CrickPercentilesCalculator.update(sample).  On the first call,
_initialize creates one fresh digest per output cell and a one-shot
iterator over the cell indices; the enumerate loop then consumes the
iterator, leaving it exhausted for every later call. -/
def update (tid : TensorId) (st : State) (sample : Sample) : State :=
  let tensor := sample tid
  let st1 :=
    if st.digests.isNone then
      { digests := some (List.replicate tensor.groups.length ([] : List ℚ)),
        indices := some (List.range tensor.groups.length) }
    else st
  match st1.digests, st1.indices with
  | some ds, some idxs =>
      { digests := some (feed ds idxs tensor), indices := some [] }
  | _, _ => st1

/-- CrickPercentilesCalculator.finalize(): quantile of each digest at each
rank (TDigest.quantile modelled as the exact quantile of the received
values; its approximation error is immaterial to the claims). -/
def finalize (tid : TensorId) (axes : Axes) (ns : List ℚ) (st : State) :
    List (Measure × Val) :=
  match st.digests with
  | none => []
  | some ds =>
      ns.map (fun nn =>
        (Measure.datasetPercentile nn tid axes, ds.map (fun d => npQuantile (nn / 100) d)))

end CrickPercentilesCalculator

/-- Sample measure calculators produced by the planner.
NaiveSampleMeasureCalculator is never instantiated by
get_measure_calculators and is therefore not modelled. -/
inductive SCalc where
  | meanCalc (tensor_id : TensorId) (axes : Axes)
  | meanVarStd (tensor_id : TensorId) (axes : Axes)
  | percentiles (tensor_id : TensorId) (axes : Axes) (ns : List ℚ)
deriving DecidableEq

/-- compute(sample) of a sample measure calculator. -/
def SCalc.compute (sq : ℚ → ℚ) (c : SCalc) (sample : Sample) : List (Measure × Val) :=
  match c with
  | SCalc.meanCalc tid axes => MeanCalculator.compute tid axes sample
  | SCalc.meanVarStd tid axes => MeanVarStdCalculator.compute sq tid axes sample
  | SCalc.percentiles tid axes ns => SamplePercentilesCalculator.compute tid axes ns sample

/-- Dataset measure calculators produced by the planner, with their state.
The module-level binding DatasetPercentilesCalculator selects the crick
variant exactly when the crick library imported successfully. -/
inductive DCalc where
  | meanCalc (tensor_id : TensorId) (axes : Axes) (st : MeanCalculator.State)
  | meanVarStd (tensor_id : TensorId) (axes : Axes) (st : MeanVarStdCalculator.State)
  | meanPercentiles (tensor_id : TensorId) (axes : Axes) (ns : List ℚ)
      (st : MeanPercentilesCalculator.State)
  | crickPercentiles (tensor_id : TensorId) (axes : Axes) (ns : List ℚ)
      (st : CrickPercentilesCalculator.State)
deriving DecidableEq

/-- update(sample) of a dataset measure calculator. -/
def DCalc.update (c : DCalc) (sample : Sample) : DCalc :=
  match c with
  | DCalc.meanCalc tid axes st => DCalc.meanCalc tid axes (MeanCalculator.update tid st sample)
  | DCalc.meanVarStd tid axes st =>
      DCalc.meanVarStd tid axes (MeanVarStdCalculator.update tid st sample)
  | DCalc.meanPercentiles tid axes ns st =>
      DCalc.meanPercentiles tid axes ns (MeanPercentilesCalculator.update tid ns st sample)
  | DCalc.crickPercentiles tid axes ns st =>
      DCalc.crickPercentiles tid axes ns (CrickPercentilesCalculator.update tid st sample)

/-- finalize() of a dataset measure calculator, with the warnings it
emits. -/
def DCalc.finalize (sq : ℚ → ℚ) (c : DCalc) : List (Measure × Val) × List Warning :=
  match c with
  | DCalc.meanCalc tid axes st => (MeanCalculator.finalize tid axes st, [])
  | DCalc.meanVarStd tid axes st => (MeanVarStdCalculator.finalize sq tid axes st, [])
  | DCalc.meanPercentiles tid axes ns st => MeanPercentilesCalculator.finalize tid axes ns st
  | DCalc.crickPercentiles tid axes ns st => (CrickPercentilesCalculator.finalize tid axes ns st, [])

/-- One iteration of the grouping loop of get_measure_calculators for the
set required_sample_means. -/
def sampleMeanStep (acc : List Measure) (m : Measure) : List Measure :=
  match m with
  | Measure.sampleMean _ _ => listInsert acc m
  | _ => acc

/-- One iteration of the grouping loop for required_dataset_means. -/
def datasetMeanStep (acc : List Measure) (m : Measure) : List Measure :=
  match m with
  | Measure.datasetMean _ _ => listInsert acc m
  | _ => acc

/-- One iteration of the grouping loop for required_sample_mean_var_std:
a SampleVar or SampleStd request adds the whole
{SampleMean, SampleStd, SampleVar} triple for its (tensor_id, axes). -/
def sampleMVSStep (acc : List Measure) (m : Measure) : List Measure :=
  match m with
  | Measure.sampleVar t a =>
      listInsert (listInsert (listInsert acc
        (Measure.sampleMean t a)) (Measure.sampleStd t a)) (Measure.sampleVar t a)
  | Measure.sampleStd t a =>
      listInsert (listInsert (listInsert acc
        (Measure.sampleMean t a)) (Measure.sampleStd t a)) (Measure.sampleVar t a)
  | _ => acc

/-- One iteration of the grouping loop for required_dataset_mean_var_std. -/
def datasetMVSStep (acc : List Measure) (m : Measure) : List Measure :=
  match m with
  | Measure.datasetVar t a =>
      listInsert (listInsert (listInsert acc
        (Measure.datasetMean t a)) (Measure.datasetStd t a)) (Measure.datasetVar t a)
  | Measure.datasetStd t a =>
      listInsert (listInsert (listInsert acc
        (Measure.datasetMean t a)) (Measure.datasetStd t a)) (Measure.datasetVar t a)
  | _ => acc

/-- required_percentiles.setdefault((tensor_id, axes), set()).add(n). -/
def dictAddRank (d : List ((TensorId × Axes) × List ℚ)) (k : TensorId × Axes) (nn : ℚ) :
    List ((TensorId × Axes) × List ℚ) :=
  match d with
  | [] => [(k, [nn])]
  | (k0, s0) :: rest =>
      if k0 = k then (k0, listInsert s0 nn) :: rest else (k0, s0) :: dictAddRank rest k nn

/-- One iteration of the grouping loop for required_sample_percentiles. -/
def samplePercStep (acc : List ((TensorId × Axes) × List ℚ)) (m : Measure) :
    List ((TensorId × Axes) × List ℚ) :=
  match m with
  | Measure.samplePercentile nn t a => dictAddRank acc (t, a) nn
  | _ => acc

/-- One iteration of the grouping loop for required_dataset_percentiles. -/
def datasetPercStep (acc : List ((TensorId × Axes) × List ℚ)) (m : Measure) :
    List ((TensorId × Axes) × List ℚ) :=
  match m with
  | Measure.datasetPercentile nn t a => dictAddRank acc (t, a) nn
  | _ => acc

/-- get_measure_calculators(required_measures).  crickAvailable is the
module-level configuration selecting DatasetPercentilesCalculator.  The
grouping loop fills six containers; the emission loops then append, in
source order: standalone mean calculators for mean requests not covered
by a var/std group, one MeanVarStdCalculator per element of the
mean-var-std set, and one percentile calculator per dict key. -/
def get_measure_calculators (crickAvailable : Bool) (required_measures : List Measure) :
    List SCalc × List DCalc :=
  let rsm := required_measures.foldl sampleMeanStep []
  let rdm := required_measures.foldl datasetMeanStep []
  let rsmvs := required_measures.foldl sampleMVSStep []
  let rdmvs := required_measures.foldl datasetMVSStep []
  let rsp := required_measures.foldl samplePercStep []
  let rdp := required_measures.foldl datasetPercStep []
  let sample_calculators :=
    (rsm.filter (fun m => decide (m ∉ rsmvs))).map
      (fun m => SCalc.meanCalc m.tensor_id m.axes)
    ++ rsmvs.map (fun m => SCalc.meanVarStd m.tensor_id m.axes)
    ++ rsp.map (fun kv => SCalc.percentiles kv.1.1 kv.1.2 kv.2)
  let dataset_calculators :=
    (rdm.filter (fun m => decide (m ∉ rdmvs))).map
      (fun m => DCalc.meanCalc m.tensor_id m.axes MeanCalculator.State.init)
    ++ rdmvs.map (fun m => DCalc.meanVarStd m.tensor_id m.axes MeanVarStdCalculator.State.init)
    ++ rdp.map (fun kv =>
        if crickAvailable then
          DCalc.crickPercentiles kv.1.1 kv.1.2 kv.2 CrickPercentilesCalculator.State.init
        else
          DCalc.meanPercentiles kv.1.1 kv.1.2 kv.2 MeanPercentilesCalculator.State.init)
  (sample_calculators, dataset_calculators)

/-- The state of a StatsCalculator: self.sample_count, the two calculator
lists and self._current_dataset_measures. -/
structure Stats where
  sample_count : ℕ
  sample_calculators : List SCalc
  dataset_calculators : List DCalc
  current_dataset_measures : Option (List (Measure × Val))
deriving DecidableEq

namespace StatsCalculator

/-- The set comprehension of __init__ collecting the requested
dataset-scope measures absent from the supplied snapshot. -/
def missingDatasetMeasures (measures : List Measure) (initial : List (Measure × Val)) :
    List Measure :=
  measures.foldl
    (fun acc m =>
      if m.isDataset = true ∧ m ∉ dictKeys initial then listInsert acc m else acc) []

/-- StatsCalculator.__init__(measures, initial_dataset_measures): plans
the calculators, then pre-seeds the cached dataset result from the
snapshot when it covers every requested dataset measure, otherwise
discards the snapshot with a warning. -/
def init (crickAvailable : Bool) (measures : List Measure)
    (initial_dataset_measures : Option (List (Measure × Val))) : Stats × List Warning :=
  let planned := get_measure_calculators crickAvailable measures
  match initial_dataset_measures with
  | none =>
      ({ sample_count := 0, sample_calculators := planned.1,
         dataset_calculators := planned.2, current_dataset_measures := none }, [])
  | some initial =>
      let missing := missingDatasetMeasures measures initial
      if missing ≠ [] then
        ({ sample_count := 0, sample_calculators := planned.1,
           dataset_calculators := planned.2, current_dataset_measures := none },
         [Warning.ignoringInitialMeasures missing])
      else
        ({ sample_count := 0, sample_calculators := planned.1,
           dataset_calculators := planned.2,
           current_dataset_measures := some (dictOf initial) }, [])

/-- StatsCalculator.finalize(): return the cached dataset result if it is
present, otherwise merge the finalize maps of every dataset calculator
into a fresh dict and cache it. -/
def finalize (sq : ℚ → ℚ) (s : Stats) : List (Measure × Val) × Stats :=
  match s.current_dataset_measures with
  | some m => (m, s)
  | none =>
      let m := s.dataset_calculators.foldl
        (fun acc c => dictUpdate acc (DCalc.finalize sq c).1) []
      (m, { s with current_dataset_measures := some m })

/-- StatsCalculator._update(sample): increment the sample counter once per
call, feed every yielded sample to every dataset calculator in arrival
order, invalidate the cached dataset result, and return the last yielded
sample if any.  A single Sample argument corresponds to a one-element
list. -/
def updateCore (s : Stats) (samples : List Sample) : Stats × Option Sample :=
  ({ s with
      sample_count := s.sample_count + 1,
      dataset_calculators :=
        samples.foldl (fun cs smp => cs.map (fun c => DCalc.update c smp))
          s.dataset_calculators,
      current_dataset_measures := none },
   samples.getLast?)

/-- StatsCalculator.update(sample). -/
def update (s : Stats) (samples : List Sample) : Stats :=
  (updateCore s samples).1

/-- StatsCalculator._compute(sample): merge the compute maps of every
sample calculator into a fresh dict. -/
def computeAll (sq : ℚ → ℚ) (s : Stats) (sample : Sample) : List (Measure × Val) :=
  s.sample_calculators.foldl (fun acc c => dictUpdate acc (SCalc.compute sq c sample)) []

/-- StatsCalculator.update_and_get_all(sample): update, raise ValueError
when the stream yielded no sample, else merge the sample measures of the
last yielded sample with the finalized dataset measures. -/
def update_and_get_all (sq : ℚ → ℚ) (s : Stats) (samples : List Sample) :
    Stats × Except PyErr (List (Measure × Val)) :=
  let upd := updateCore s samples
  match upd.2 with
  | none => (upd.1, Except.error PyErr.valueError)
  | some last =>
      let sm := computeAll sq upd.1 last
      let fin := finalize sq upd.1
      (fin.2, Except.ok (dictUpdate sm fin.1))

/-- StatsCalculator.skip_update_and_get_all(sample). -/
def skip_update_and_get_all (sq : ℚ → ℚ) (s : Stats) (sample : Sample) :
    Stats × List (Measure × Val) :=
  let sm := computeAll sq s sample
  let fin := finalize sq s
  (fin.2, dictUpdate sm fin.1)

end StatsCalculator

/-- Stated from the words of the spec, for refinement comparison with
the compute of MeanVarStdCalculator: the mean of a reduction group. -/
def specPopMean (g : List ℚ) : ℚ := g.sum / (g.length : ℚ)

/-- Stated from the words of the spec: population variance, the sum of
squared deviations from the group mean divided by the reduced element
count. -/
def specPopVar (g : List ℚ) : ℚ :=
  (g.map (fun x => (x - specPopMean g) ^ 2)).sum / (g.length : ℚ)

/-- The merge of the finalize maps of a list of dataset calculators into a
fresh dict, as performed by StatsCalculator.finalize. -/
def mergedFinalize (sq : ℚ → ℚ) (cs : List DCalc) : List (Measure × Val) :=
  cs.foldl (fun acc c => dictUpdate acc (DCalc.finalize sq c).1) []

/-- The contribution of one required measure to required_sample_means:
the measure itself when it is a SampleMean, nothing otherwise. -/
def sampleMeanAdds (m : Measure) : List Measure :=
  match m with
  | Measure.sampleMean _ _ => [m]
  | _ => []

/-- The contribution of one required measure to required_dataset_means. -/
def datasetMeanAdds (m : Measure) : List Measure :=
  match m with
  | Measure.datasetMean _ _ => [m]
  | _ => []

/-- The contribution of one required measure to
required_sample_mean_var_std: the whole mean-std-var triple for its key
when it is a SampleVar or a SampleStd, nothing otherwise. -/
def sampleMVSAdds (m : Measure) : List Measure :=
  match m with
  | Measure.sampleVar t a =>
      [Measure.sampleMean t a, Measure.sampleStd t a, Measure.sampleVar t a]
  | Measure.sampleStd t a =>
      [Measure.sampleMean t a, Measure.sampleStd t a, Measure.sampleVar t a]
  | _ => []

/-- The contribution of one required measure to
required_dataset_mean_var_std. -/
def datasetMVSAdds (m : Measure) : List Measure :=
  match m with
  | Measure.datasetVar t a =>
      [Measure.datasetMean t a, Measure.datasetStd t a, Measure.datasetVar t a]
  | Measure.datasetStd t a =>
      [Measure.datasetMean t a, Measure.datasetStd t a, Measure.datasetVar t a]
  | _ => []

/-- The dict key and rank a required measure contributes to
required_sample_percentiles, when any. -/
def samplePercKey (m : Measure) : Option ((TensorId × Axes) × ℚ) :=
  match m with
  | Measure.samplePercentile nn t a => some ((t, a), nn)
  | _ => none

/-- The dict key and rank a required measure contributes to
required_dataset_percentiles, when any. -/
def datasetPercKey (m : Measure) : Option ((TensorId × Axes) × ℚ) :=
  match m with
  | Measure.datasetPercentile nn t a => some ((t, a), nn)
  | _ => none

/-- Whether a sample calculator is a standalone MeanCalculator for the
given key. -/
def isSampleMeanCalcFor (t : TensorId) (a : Axes) : SCalc → Bool
  | SCalc.meanCalc t0 a0 => decide (t0 = t ∧ a0 = a)
  | _ => false

/-- Whether a sample calculator is a MeanVarStdCalculator for the given
key. -/
def isSampleMVSCalcFor (t : TensorId) (a : Axes) : SCalc → Bool
  | SCalc.meanVarStd t0 a0 => decide (t0 = t ∧ a0 = a)
  | _ => false

/-- Whether a sample calculator is a SamplePercentilesCalculator for the
given key. -/
def isSamplePercCalcFor (t : TensorId) (a : Axes) : SCalc → Bool
  | SCalc.percentiles t0 a0 _ => decide (t0 = t ∧ a0 = a)
  | _ => false

/-- Whether a dataset calculator is a standalone MeanCalculator for the
given key. -/
def isDatasetMeanCalcFor (t : TensorId) (a : Axes) : DCalc → Bool
  | DCalc.meanCalc t0 a0 _ => decide (t0 = t ∧ a0 = a)
  | _ => false

/-- Whether a dataset calculator is a MeanVarStdCalculator for the given
key. -/
def isDatasetMVSCalcFor (t : TensorId) (a : Axes) : DCalc → Bool
  | DCalc.meanVarStd t0 a0 _ => decide (t0 = t ∧ a0 = a)
  | _ => false

/-- Whether a dataset calculator is a dataset percentile calculator
(either strategy) for the given key. -/
def isDatasetPercCalcFor (t : TensorId) (a : Axes) : DCalc → Bool
  | DCalc.meanPercentiles t0 a0 _ _ => decide (t0 = t ∧ a0 = a)
  | DCalc.crickPercentiles t0 a0 _ _ => decide (t0 = t ∧ a0 = a)
  | _ => false

/-- Claim C3: finalize is idempotent and cache-aware.  A second finalize
without an intervening update returns the identical cached value and
leaves the state unchanged, and the first finalize on an uncached state
merges the finalize maps of every dataset calculator into one dict. -/
theorem C3_finalize_idempotent (sq : ℚ → ℚ) (s : Stats) :
    (StatsCalculator.finalize sq (StatsCalculator.finalize sq s).2).1
        = (StatsCalculator.finalize sq s).1
    ∧ (StatsCalculator.finalize sq (StatsCalculator.finalize sq s).2).2
        = (StatsCalculator.finalize sq s).2
    ∧ (s.current_dataset_measures = none →
        (StatsCalculator.finalize sq s).1 = mergedFinalize sq s.dataset_calculators) := by
  cases h : s.current_dataset_measures with
  | some m =>
      refine ⟨?_, ?_, ?_⟩ <;> simp [StatsCalculator.finalize, h, mergedFinalize]
  | none =>
      refine ⟨?_, ?_, ?_⟩ <;> simp [StatsCalculator.finalize, h, mergedFinalize]

/-- Witness for C3 at a concrete coordinator holding one fresh dataset
mean calculator and no cached result. -/
theorem C3_finalize_idempotent_witness :
    (({ sample_count := 0, sample_calculators := [],
        dataset_calculators := [DCalc.meanCalc "t" none MeanCalculator.State.init],
        current_dataset_measures := none } : Stats).current_dataset_measures = none)
    ∧ (StatsCalculator.finalize id
        { sample_count := 0, sample_calculators := [],
          dataset_calculators := [DCalc.meanCalc "t" none MeanCalculator.State.init],
          current_dataset_measures := none }).1
      = mergedFinalize id [DCalc.meanCalc "t" none MeanCalculator.State.init] :=
  ⟨rfl,
   (C3_finalize_idempotent id
     { sample_count := 0, sample_calculators := [],
       dataset_calculators := [DCalc.meanCalc "t" none MeanCalculator.State.init],
       current_dataset_measures := none }).2.2 rfl⟩

/-- Claim C10: one call to update increments sample_count by exactly one
and unconditionally clears the cached dataset result, whatever the
supplied iterable yields; with an empty iterable the dataset calculators
are untouched and the next finalize recomputes from them. -/
theorem C10_update_counts_and_invalidates (s : Stats) (samples : List Sample) :
    (StatsCalculator.update s samples).sample_count = s.sample_count + 1
    ∧ (StatsCalculator.update s samples).current_dataset_measures = none
    ∧ (samples = [] →
        (StatsCalculator.update s samples).dataset_calculators = s.dataset_calculators
        ∧ ∀ sq, (StatsCalculator.finalize sq (StatsCalculator.update s samples)).1
            = mergedFinalize sq s.dataset_calculators) := by
  refine ⟨rfl, rfl, ?_⟩
  rintro rfl
  exact ⟨rfl, fun sq => rfl⟩

/-- Witness for C10: updating a concrete coordinator, whose cache holds a
snapshot, with an empty sample stream. -/
theorem C10_update_counts_and_invalidates_witness :
    (([] : List Sample) = [])
    ∧ (StatsCalculator.update
        { sample_count := 0, sample_calculators := [],
          dataset_calculators := [DCalc.meanCalc "t" none MeanCalculator.State.init],
          current_dataset_measures := some [(Measure.datasetMean "t" none, [0])] } []).sample_count = 1
    ∧ (StatsCalculator.update
        { sample_count := 0, sample_calculators := [],
          dataset_calculators := [DCalc.meanCalc "t" none MeanCalculator.State.init],
          current_dataset_measures := some [(Measure.datasetMean "t" none, [0])] } []).current_dataset_measures = none
    ∧ (StatsCalculator.update
        { sample_count := 0, sample_calculators := [],
          dataset_calculators := [DCalc.meanCalc "t" none MeanCalculator.State.init],
          current_dataset_measures := some [(Measure.datasetMean "t" none, [0])] } []).dataset_calculators
        = [DCalc.meanCalc "t" none MeanCalculator.State.init] := by
  refine ⟨rfl, ?_, ?_, ?_⟩
  · exact (C10_update_counts_and_invalidates _ []).1
  · exact (C10_update_counts_and_invalidates _ []).2.1
  · exact ((C10_update_counts_and_invalidates _ []).2.2 rfl).1

theorem mem_listInsert {α : Type} [DecidableEq α] {l : List α} {a x : α} :
    x ∈ listInsert l a ↔ x ∈ l ∨ x = a := by
  unfold listInsert
  by_cases h : a ∈ l
  · simp only [if_pos h]
    exact ⟨Or.inl, fun hx => hx.elim id (fun e => e ▸ h)⟩
  · simp [if_neg h]

theorem nodup_listInsert {α : Type} [DecidableEq α] {l : List α} (h : l.Nodup) (a : α) :
    (listInsert l a).Nodup := by
  unfold listInsert
  by_cases ha : a ∈ l
  · simpa [if_pos ha]
  · simp [if_neg ha, List.nodup_append, h, ha]

theorem mem_missing_foldl (initial : List (Measure × Val)) (ms : List Measure) :
    ∀ (acc : List Measure) (x : Measure),
      x ∈ ms.foldl
          (fun acc m =>
            if m.isDataset = true ∧ m ∉ dictKeys initial then listInsert acc m else acc) acc
        ↔ x ∈ acc ∨ (x ∈ ms ∧ x.isDataset = true ∧ x ∉ dictKeys initial) := by
  induction ms with
  | nil => simp
  | cons m rest ih =>
      intro acc x
      simp only [List.foldl_cons]
      rw [ih]
      by_cases hm : m.isDataset = true ∧ m ∉ dictKeys initial
      · simp only [if_pos hm, mem_listInsert, List.mem_cons]
        constructor
        · rintro ((hx | rfl) | h)
          · exact Or.inl hx
          · exact Or.inr ⟨Or.inl rfl, hm⟩
          · exact Or.inr ⟨Or.inr h.1, h.2⟩
        · rintro (hx | ⟨(rfl | hx), hd⟩)
          · exact Or.inl (Or.inl hx)
          · exact Or.inl (Or.inr rfl)
          · exact Or.inr ⟨hx, hd⟩
      · simp only [if_neg hm, List.mem_cons]
        constructor
        · rintro (hx | h)
          · exact Or.inl hx
          · exact Or.inr ⟨Or.inr h.1, h.2⟩
        · rintro (hx | ⟨(rfl | hx), hd⟩)
          · exact Or.inl hx
          · exact absurd hd hm
          · exact Or.inr ⟨hx, hd⟩

theorem missingDatasetMeasures_eq_nil_iff (measures : List Measure)
    (initial : List (Measure × Val)) :
    StatsCalculator.missingDatasetMeasures measures initial = []
      ↔ ∀ m ∈ measures, m.isDataset = true → m ∈ dictKeys initial := by
  rw [List.eq_nil_iff_forall_not_mem]
  constructor
  · intro h m hm hd
    by_contra hk
    exact h m ((mem_missing_foldl initial measures [] m).mpr (Or.inr ⟨hm, hd, hk⟩))
  · intro h x hx
    rcases (mem_missing_foldl initial measures [] x).mp hx with hx0 | ⟨hm, hd, hk⟩
    · exact (List.not_mem_nil x) hx0
    · exact hk (h x hm hd)

/-- Claim C7: a complete initial dataset-measure snapshot pre-seeds the
finalized cache (and finalize returns it); an incomplete one is discarded
with a warning, the coordinator starts without a cache, and finalize then
recomputes from the (fresh) dataset calculators. -/
theorem C7_initial_snapshot (crick : Bool) (sq : ℚ → ℚ) (measures : List Measure)
    (initial : List (Measure × Val)) :
    ((∀ m ∈ measures, m.isDataset = true → m ∈ dictKeys initial) →
        (StatsCalculator.init crick measures (some initial)).1.current_dataset_measures
            = some (dictOf initial)
        ∧ (StatsCalculator.init crick measures (some initial)).2 = []
        ∧ (StatsCalculator.finalize sq
            (StatsCalculator.init crick measures (some initial)).1).1 = dictOf initial)
    ∧ ((¬ ∀ m ∈ measures, m.isDataset = true → m ∈ dictKeys initial) →
        (StatsCalculator.init crick measures (some initial)).2
            = [Warning.ignoringInitialMeasures
                (StatsCalculator.missingDatasetMeasures measures initial)]
        ∧ (StatsCalculator.init crick measures (some initial)).1.current_dataset_measures
            = none
        ∧ (StatsCalculator.finalize sq
            (StatsCalculator.init crick measures (some initial)).1).1
            = mergedFinalize sq (get_measure_calculators crick measures).2) := by
  constructor
  · intro hcov
    have hmiss : StatsCalculator.missingDatasetMeasures measures initial = [] :=
      (missingDatasetMeasures_eq_nil_iff measures initial).mpr hcov
    refine ⟨?_, ?_, ?_⟩ <;>
      simp [StatsCalculator.init, hmiss, StatsCalculator.finalize]
  · intro hcov
    have hmiss : StatsCalculator.missingDatasetMeasures measures initial ≠ [] :=
      fun e => hcov ((missingDatasetMeasures_eq_nil_iff measures initial).mp e)
    refine ⟨?_, ?_, ?_⟩ <;>
      simp [StatsCalculator.init, hmiss, StatsCalculator.finalize, mergedFinalize]

/-- Witness for C7: a complete snapshot for one requested dataset mean is
kept as the cache; an empty snapshot for the same request is discarded. -/
theorem C7_initial_snapshot_witness :
    (∀ m ∈ [Measure.datasetMean "t" none], m.isDataset = true →
        m ∈ dictKeys [(Measure.datasetMean "t" none, ([0] : Val))])
    ∧ (StatsCalculator.init false [Measure.datasetMean "t" none]
        (some [(Measure.datasetMean "t" none, [0])])).1.current_dataset_measures
      = some [(Measure.datasetMean "t" none, [0])]
    ∧ ¬ (∀ m ∈ [Measure.datasetMean "t" none], m.isDataset = true →
        m ∈ dictKeys ([] : List (Measure × Val)))
    ∧ (StatsCalculator.init false [Measure.datasetMean "t" none]
        (some [])).1.current_dataset_measures = none := by
  refine ⟨by decide, ?_, by decide, ?_⟩
  · exact ((C7_initial_snapshot false id [Measure.datasetMean "t" none]
      [(Measure.datasetMean "t" none, [0])]).1 (by decide)).1
  · exact ((C7_initial_snapshot false id [Measure.datasetMean "t" none] []).2
      (by decide)).2.1

/-- Claim C6: update_and_get_all raises ValueError (an input error,
distinct from an AssertionError contract violation) when the stream yields
no sample; otherwise it returns the sample measures of the last yielded
sample merged with the freshly finalized dataset measures of the updated
calculators. -/
theorem C6_update_and_get_all (sq : ℚ → ℚ) (s : Stats) (samples : List Sample) :
    (samples = [] →
        (StatsCalculator.update_and_get_all sq s samples).2
          = Except.error PyErr.valueError)
    ∧ (∀ rest last, samples = rest ++ [last] →
        (StatsCalculator.update_and_get_all sq s samples).2
          = Except.ok (dictUpdate
              (StatsCalculator.computeAll sq (StatsCalculator.update s samples) last)
              (mergedFinalize sq (StatsCalculator.update s samples).dataset_calculators))) := by
  constructor
  · rintro rfl
    rfl
  · rintro rest last rfl
    simp [StatsCalculator.update_and_get_all, StatsCalculator.updateCore,
      List.getLast?_concat, StatsCalculator.update, StatsCalculator.finalize, mergedFinalize]

/-- Witness for C6 on a coordinator with no calculators: the empty stream
errors, a one-sample stream returns the (empty) merged map. -/
theorem C6_update_and_get_all_witness :
    (([] : List Sample) = [])
    ∧ (StatsCalculator.update_and_get_all id
        { sample_count := 0, sample_calculators := [], dataset_calculators := [],
          current_dataset_measures := none } ([] : List Sample)).2
        = Except.error PyErr.valueError
    ∧ ([fun _ => ({ dtype := DType.float64, groupSize := 1, groups := [[1]] } : NpTensor)]
        : List Sample)
        = [] ++ [fun _ => ({ dtype := DType.float64, groupSize := 1, groups := [[1]] } : NpTensor)]
    ∧ (StatsCalculator.update_and_get_all id
        { sample_count := 0, sample_calculators := [], dataset_calculators := [],
          current_dataset_measures := none }
        [fun _ => ({ dtype := DType.float64, groupSize := 1, groups := [[1]] } : NpTensor)]).2
        = Except.ok [] := by
  refine ⟨rfl, (C6_update_and_get_all id _ []).1 rfl, rfl, ?_⟩
  exact ((C6_update_and_get_all id
    { sample_count := 0, sample_calculators := [], dataset_calculators := [],
      current_dataset_measures := none }
    [fun _ => ({ dtype := DType.float64, groupSize := 1, groups := [[1]] } : NpTensor)]).2
    [] (fun _ => { dtype := DType.float64, groupSize := 1, groups := [[1]] }) rfl).trans rfl

/-- Counterexample to claim C8 as stated: a finalize before any sample was
observed returns silently, with no approximation warning emitted. -/
theorem C8_counterexample :
    (MeanPercentilesCalculator.finalize "t" none [50]
        MeanPercentilesCalculator.State.init).2 = []
    ∧ Warning.naivePercentiles ∉
        (MeanPercentilesCalculator.finalize "t" none [50]
          MeanPercentilesCalculator.State.init).2 := by
  refine ⟨rfl, ?_⟩
  simp [MeanPercentilesCalculator.finalize, MeanPercentilesCalculator.State.init]

/-- Claim C8 (amended): the naive dataset percentile strategy emits the
non-fatal approximation warning on every finalize made after at least one
sample was observed, returning its estimates next to the warning; a
finalize before any sample returns an empty map and no warning.  The
function is total, so the warning never aborts the computation. -/
theorem C8_naive_percentile_warning (tid : TensorId) (axes : Axes) (ns : List ℚ)
    (st : MeanPercentilesCalculator.State) :
    (st.estimates ≠ none →
        (MeanPercentilesCalculator.finalize tid axes ns st).2 = [Warning.naivePercentiles]
        ∧ ∀ ests, st.estimates = some ests →
            (MeanPercentilesCalculator.finalize tid axes ns st).1
              = List.zipWith (fun nn e => (Measure.datasetPercentile nn tid axes, e)) ns ests)
    ∧ (st.estimates = none →
        MeanPercentilesCalculator.finalize tid axes ns st = ([], [])) := by
  cases h : st.estimates with
  | none => simp [MeanPercentilesCalculator.finalize, h]
  | some ests => simp [MeanPercentilesCalculator.finalize, h]

/-- Witness for C8 at a state that has observed one sample. -/
theorem C8_naive_percentile_warning_witness :
    (({ n := 1, estimates := some [[0]] } : MeanPercentilesCalculator.State).estimates
        ≠ none)
    ∧ (MeanPercentilesCalculator.finalize "t" none [50]
        { n := 1, estimates := some [[0]] }).2 = [Warning.naivePercentiles] := by
  refine ⟨by simp, ?_⟩
  exact ((C8_naive_percentile_warning "t" none [50] { n := 1, estimates := some [[0]] }).1
    (by simp)).1

/-- Claim C4 (the code evaluated at the failing input): the first update
of CrickPercentilesCalculator feeds the elements of the first sample into
the digests, but the second update is a silent no-op because the one-shot
itertools.product iterator stored by _initialize was exhausted by the
first enumerate loop; the digests never receive the second sample. -/
theorem C4_second_update_noop :
    (CrickPercentilesCalculator.update "t"
        (CrickPercentilesCalculator.update "t" CrickPercentilesCalculator.State.init
          (fun _ => { dtype := DType.float64, groupSize := 1, groups := [[1]] }))
        (fun _ => { dtype := DType.float64, groupSize := 1, groups := [[2]] })).digests
      = some [[1]]
    ∧ (CrickPercentilesCalculator.update "t" CrickPercentilesCalculator.State.init
        (fun _ => { dtype := DType.float64, groupSize := 1, groups := [[1]] })).digests
      = some [[1]] := by
  constructor <;> rfl

/-- Counterexample to claim C5 as stated: on a float32 tensor, compute
returns float32 mean, variance and std; no upcast to 64-bit happens in
MeanVarStdCalculator.compute. -/
theorem C5_counterexample :
    ((MeanVarStdCalculator.computeD id "t" none
        (fun _ => { dtype := DType.float32, groupSize := 1, groups := [[1]] })).map
          (fun e => e.2.1))
      = [DType.float32, DType.float32, DType.float32]
    ∧ DType.float32 ≠ DType.float64 := by
  refine ⟨rfl, by decide⟩

/-- Claim C5 (amended): for every sample and axis set,
MeanVarStdCalculator.compute returns the exact in-sample mean, the
population variance (sum of squared deviations over the reduced element
count) and std = sqrt(variance), all carried at the incoming tensor's own
dtype; compute performs no float64 upcast. -/
theorem C5_compute_population_stats (sq : ℚ → ℚ) (tid : TensorId) (axes : Axes)
    (sample : Sample) (hu : (sample tid).uniform) :
    MeanVarStdCalculator.computeD sq tid axes sample
      = [(Measure.sampleMean tid axes,
            ((sample tid).dtype, (sample tid).groups.map specPopMean)),
         (Measure.sampleVar tid axes,
            ((sample tid).dtype, (sample tid).groups.map specPopVar)),
         (Measure.sampleStd tid axes,
            ((sample tid).dtype, ((sample tid).groups.map specPopVar).map sq))] := by
  have hpromote : ∀ d : DType, d.promote d = d := fun d => by
    unfold DType.promote; simp
  have hvar : (sample tid).groups.map
      (fun g => (g.map (fun x => (x - g.sum / (g.length : ℚ)) ^ 2)).sum
        / (((sample tid).groupSize : ℕ) : ℚ))
      = (sample tid).groups.map specPopVar := by
    apply List.map_congr_left
    intro g hg
    rw [← hu g hg]
    unfold specPopVar specPopMean
    rfl
  unfold MeanVarStdCalculator.computeD
  simp only [hpromote]
  rw [hvar]
  simp [tensorMean, specPopMean]

/-- Witness for C5 at a concrete float64 tensor with one reduction group
of two elements. -/
theorem C5_compute_population_stats_witness :
    (({ dtype := DType.float64, groupSize := 2, groups := [[1, 3]] } : NpTensor)).uniform
    ∧ MeanVarStdCalculator.computeD id "t" none
        (fun _ => { dtype := DType.float64, groupSize := 2, groups := [[1, 3]] })
      = [(Measure.sampleMean "t" none,
            (DType.float64, ([[1, 3]] : List (List ℚ)).map specPopMean)),
         (Measure.sampleVar "t" none,
            (DType.float64, ([[1, 3]] : List (List ℚ)).map specPopVar)),
         (Measure.sampleStd "t" none,
            (DType.float64, (([[1, 3]] : List (List ℚ)).map specPopVar).map id))] := by
  refine ⟨by decide, ?_⟩
  exact C5_compute_population_stats id "t" none
    (fun _ => { dtype := DType.float64, groupSize := 2, groups := [[1, 3]] }) (by decide)

theorem getD_zero_mem {s : List ℚ} (h : s ≠ []) : s.getD 0 0 ∈ s := by
  cases s with
  | nil => exact absurd rfl h
  | cons a t => simp [List.getD_cons_zero]

theorem sorted_getD_zero_le {s : List ℚ} (hs : s.Sorted (· ≤ ·)) :
    ∀ x ∈ s, s.getD 0 0 ≤ x := by
  cases s with
  | nil => intro x hx; simp at hx
  | cons a t =>
      intro x hx
      rcases List.mem_cons.mp hx with rfl | hx
      · simp [List.getD_cons_zero]
      · simpa [List.getD_cons_zero] using List.rel_of_sorted_cons hs x hx

theorem getD_last_mem : ∀ {s : List ℚ}, s ≠ [] → s.getD (s.length - 1) 0 ∈ s := by
  intro s
  induction s with
  | nil => intro h; exact absurd rfl h
  | cons a t ih =>
      intro _
      cases t with
      | nil => simp
      | cons b u =>
          have ih2 := ih (by simp)
          simp only [List.length_cons, Nat.succ_sub_one] at ih2 ⊢
          rw [List.getD_cons_succ]
          exact List.mem_cons_of_mem a ih2

theorem sorted_le_getD_last : ∀ (s : List ℚ), s.Sorted (· ≤ ·) →
    ∀ x ∈ s, x ≤ s.getD (s.length - 1) 0 := by
  intro s
  induction s with
  | nil => intro _ x hx; simp at hx
  | cons a t ih =>
      intro hs x hx
      cases t with
      | nil =>
          rcases List.mem_cons.mp hx with rfl | hx
          · simp
          · simp at hx
      | cons b u =>
          simp only [List.length_cons, Nat.succ_sub_one] at hx ⊢
          rw [List.getD_cons_succ]
          have hlast : (b :: u).getD ((b :: u).length - 1) 0 ∈ b :: u :=
            getD_last_mem (by simp)
          simp only [List.length_cons, Nat.succ_sub_one] at hlast
          rcases List.mem_cons.mp hx with rfl | hx2
          · exact List.rel_of_sorted_cons hs _ hlast
          · have := ih hs.of_cons x hx2
            simpa [List.length_cons, Nat.succ_sub_one] using this

theorem npQuantile_zero (l : List ℚ) (h : l ≠ []) :
    npQuantile 0 l ∈ l ∧ ∀ x ∈ l, npQuantile 0 l ≤ x := by
  have hperm : List.Perm (l.insertionSort (· ≤ ·)) l := List.perm_insertionSort _ l
  have hsorted : (l.insertionSort (· ≤ ·)).Sorted (· ≤ ·) :=
    List.sorted_insertionSort _ l
  have hsne : l.insertionSort (· ≤ ·) ≠ [] := by
    intro e
    apply h
    have hl := List.length_insertionSort (fun a b : ℚ => a ≤ b) l
    rw [e] at hl
    exact List.length_eq_zero.mp hl.symm
  have hq : npQuantile 0 l = (l.insertionSort (· ≤ ·)).getD 0 0 := by
    unfold npQuantile
    simp
  rw [hq]
  exact ⟨hperm.mem_iff.mp (getD_zero_mem hsne),
    fun x hx => sorted_getD_zero_le hsorted x (hperm.mem_iff.mpr hx)⟩

theorem npQuantile_one (l : List ℚ) (h : l ≠ []) :
    npQuantile 1 l ∈ l ∧ ∀ x ∈ l, x ≤ npQuantile 1 l := by
  have hperm : List.Perm (l.insertionSort (· ≤ ·)) l := List.perm_insertionSort _ l
  have hsorted : (l.insertionSort (· ≤ ·)).Sorted (· ≤ ·) :=
    List.sorted_insertionSort _ l
  have hlen1 : 1 ≤ l.length := List.length_pos.mpr h
  have hsne : l.insertionSort (· ≤ ·) ≠ [] := by
    intro e
    apply h
    have hl := List.length_insertionSort (fun a b : ℚ => a ≤ b) l
    rw [e] at hl
    exact List.length_eq_zero.mp hl.symm
  have hq : npQuantile 1 l = (l.insertionSort (· ≤ ·)).getD (l.length - 1) 0 := by
    unfold npQuantile
    have hcast : ((l.length : ℚ) - 1) = ((l.length - 1 : ℕ) : ℚ) := by
      rw [Nat.cast_sub hlen1, Nat.cast_one]
    simp only [one_mul, hcast, Int.floor_natCast, Int.ceil_natCast, Int.toNat_natCast]
    simp
  have hidx : l.length - 1 = (l.insertionSort (· ≤ ·)).length - 1 := by
    rw [List.length_insertionSort]
  rw [hq, hidx]
  exact ⟨hperm.mem_iff.mp (getD_last_mem hsne),
    fun x hx => sorted_le_getD_last _ hsorted x (hperm.mem_iff.mpr hx)⟩

/-- Claim C9: the sample-scope percentile calculator returns, at rank 0,
the exact minimum and, at rank 100, the exact maximum of each nonempty
reduction group; the entries it emits for ranks 0 and 100 are exactly the
per-group quantiles at q = 0 and q = 1, which are attained group members,
not interpolation artifacts. -/
theorem C9_rank_boundaries (tid : TensorId) (axes : Axes) (ns : List ℚ) (sample : Sample)
    (h0 : (0:ℚ) ∈ ns) (h100 : (100:ℚ) ∈ ns) :
    ((Measure.samplePercentile 0 tid axes,
        (sample tid).groups.map (fun g => npQuantile 0 g))
      ∈ SamplePercentilesCalculator.compute tid axes ns sample)
    ∧ ((Measure.samplePercentile 100 tid axes,
        (sample tid).groups.map (fun g => npQuantile 1 g))
      ∈ SamplePercentilesCalculator.compute tid axes ns sample)
    ∧ (∀ g ∈ (sample tid).groups, g ≠ [] →
        (npQuantile 0 g ∈ g ∧ ∀ x ∈ g, npQuantile 0 g ≤ x)
        ∧ (npQuantile 1 g ∈ g ∧ ∀ x ∈ g, x ≤ npQuantile 1 g)) := by
  refine ⟨?_, ?_, ?_⟩
  · unfold SamplePercentilesCalculator.compute
    refine List.mem_map.mpr ⟨0, h0, ?_⟩
    have h00 : (0:ℚ)/100 = 0 := by norm_num
    simp only [h00]
  · unfold SamplePercentilesCalculator.compute
    refine List.mem_map.mpr ⟨100, h100, ?_⟩
    have h11 : (100:ℚ)/100 = 1 := by norm_num
    simp only [h11]
  · intro g hg hgne
    exact ⟨npQuantile_zero g hgne, npQuantile_one g hgne⟩

/-- Witness for C9 on the group [1, 2] with ranks [0, 100]. -/
theorem C9_rank_boundaries_witness :
    ((0:ℚ) ∈ ([0, 100] : List ℚ)) ∧ ((100:ℚ) ∈ ([0, 100] : List ℚ))
    ∧ ((Measure.samplePercentile 0 "t" none,
        ([[1, 2]] : List (List ℚ)).map (fun g => npQuantile 0 g))
      ∈ SamplePercentilesCalculator.compute "t" none [0, 100]
          (fun _ => { dtype := DType.float64, groupSize := 2, groups := [[1, 2]] }))
    ∧ (npQuantile 0 [(1:ℚ), 2] ∈ [(1:ℚ), 2]
        ∧ ∀ x ∈ [(1:ℚ), 2], npQuantile 0 [(1:ℚ), 2] ≤ x)
    ∧ (npQuantile 1 [(1:ℚ), 2] ∈ [(1:ℚ), 2]
        ∧ ∀ x ∈ [(1:ℚ), 2], x ≤ npQuantile 1 [(1:ℚ), 2]) := by
  have h0 : (0:ℚ) ∈ ([0, 100] : List ℚ) := by decide
  have h100 : (100:ℚ) ∈ ([0, 100] : List ℚ) := by decide
  have main := C9_rank_boundaries "t" none [0, 100]
    (fun _ => { dtype := DType.float64, groupSize := 2, groups := [[1, 2]] }) h0 h100
  have hb := main.2.2 [1, 2] (by decide) (by decide)
  exact ⟨h0, h100, main.1, hb.1, hb.2⟩

theorem sum_map_sub_sq (g : List ℚ) (c : ℚ) :
    (g.map (fun x => (x - c) ^ 2)).sum
      = (g.map (fun x => x ^ 2)).sum - 2 * c * g.sum + (g.length : ℚ) * c ^ 2 := by
  induction g with
  | nil => simp
  | cons a t ih =>
      simp only [List.map_cons, List.sum_cons, ih, List.length_cons]
      push_cast
      ring

theorem cell_mean_combine (n1 n2 : ℕ) (g1 g2 : List ℚ)
    (h1 : 0 < n1) (h2 : 0 < n2) (e1 : g1.length = n1) (e2 : g2.length = n2) :
    ((n1 : ℚ) * (g1.sum / (g1.length : ℚ)) + (n2 : ℚ) * (g2.sum / (g2.length : ℚ)))
        / (((n1 + n2 : ℕ)) : ℚ)
      = (g1 ++ g2).sum / ((g1 ++ g2).length : ℚ) := by
  subst e1
  subst e2
  have h1q : (0:ℚ) < (g1.length : ℚ) := by exact_mod_cast h1
  have h2q : (0:ℚ) < (g2.length : ℚ) := by exact_mod_cast h2
  have h1ne : (g1.length : ℚ) ≠ 0 := h1q.ne'
  have h2ne : (g2.length : ℚ) ≠ 0 := h2q.ne'
  have h12ne : (g1.length : ℚ) + (g2.length : ℚ) ≠ 0 := by positivity
  rw [List.sum_append, List.length_append]
  push_cast
  field_simp

theorem cell_m2_combine (n1 n2 : ℕ) (g1 g2 : List ℚ)
    (h1 : 0 < n1) (h2 : 0 < n2) (e1 : g1.length = n1) (e2 : g2.length = n2) :
    ((g1.map (fun x => (x - g1.sum / (g1.length : ℚ)) ^ 2)).sum
        + (g2.map (fun x => (x - g2.sum / (g2.length : ℚ)) ^ 2)).sum)
      + (g2.sum / (g2.length : ℚ) - g1.sum / (g1.length : ℚ)) ^ 2
          * (n1 : ℚ) * (n2 : ℚ) / (((n1 + n2 : ℕ)) : ℚ)
      = ((g1 ++ g2).map
          (fun x => (x - (g1 ++ g2).sum / ((g1 ++ g2).length : ℚ)) ^ 2)).sum := by
  subst e1
  subst e2
  have h1q : (0:ℚ) < (g1.length : ℚ) := by exact_mod_cast h1
  have h2q : (0:ℚ) < (g2.length : ℚ) := by exact_mod_cast h2
  have h1ne : (g1.length : ℚ) ≠ 0 := h1q.ne'
  have h2ne : (g2.length : ℚ) ≠ 0 := h2q.ne'
  have h12ne : (g1.length : ℚ) + (g2.length : ℚ) ≠ 0 := by positivity
  simp only [List.map_append, List.sum_append, sum_map_sub_sq, List.length_append]
  push_cast
  field_simp
  ring

theorem mean_lists_combine (n1 n2 : ℕ) (h1 : 0 < n1) (h2 : 0 < n2) :
    ∀ (l1 l2 : List (List ℚ)), l1.length = l2.length →
      (∀ g ∈ l1, g.length = n1) → (∀ g ∈ l2, g.length = n2) →
      List.zipWith (fun a b => ((n1 : ℚ) * a + (n2 : ℚ) * b) / (((n1 + n2 : ℕ)) : ℚ))
          (l1.map (fun g => g.sum / (g.length : ℚ)))
          (l2.map (fun g => g.sum / (g.length : ℚ)))
        = (List.zipWith (· ++ ·) l1 l2).map (fun g => g.sum / (g.length : ℚ)) := by
  intro l1
  induction l1 with
  | nil => intro l2 _ _ _; simp
  | cons a t ih =>
      intro l2 hlen hu1 hu2
      cases l2 with
      | nil => simp at hlen
      | cons b u =>
          simp only [List.map_cons, List.zipWith_cons_cons]
          rw [cell_mean_combine n1 n2 a b h1 h2 (hu1 a (by simp)) (hu2 b (by simp)),
            ih u (by simpa using hlen)
              (fun g hg => hu1 g (List.mem_cons_of_mem _ hg))
              (fun g hg => hu2 g (List.mem_cons_of_mem _ hg))]

theorem m2_lists_combine (n1 n2 : ℕ) (h1 : 0 < n1) (h2 : 0 < n2) :
    ∀ (l1 l2 : List (List ℚ)), l1.length = l2.length →
      (∀ g ∈ l1, g.length = n1) → (∀ g ∈ l2, g.length = n2) →
      List.zipWith
          (fun s dd => s + dd ^ 2 * (n1 : ℚ) * (n2 : ℚ) / (((n1 + n2 : ℕ)) : ℚ))
          (List.zipWith (· + ·)
            (l1.map (fun g => (g.map (fun x => (x - g.sum / (g.length : ℚ)) ^ 2)).sum))
            (l2.map (fun g => (g.map (fun x => (x - g.sum / (g.length : ℚ)) ^ 2)).sum)))
          (List.zipWith (fun b a => b - a)
            (l2.map (fun g => g.sum / (g.length : ℚ)))
            (l1.map (fun g => g.sum / (g.length : ℚ))))
        = (List.zipWith (· ++ ·) l1 l2).map
            (fun g => (g.map (fun x => (x - g.sum / (g.length : ℚ)) ^ 2)).sum) := by
  intro l1
  induction l1 with
  | nil => intro l2 _ _ _; simp
  | cons a t ih =>
      intro l2 hlen hu1 hu2
      cases l2 with
      | nil => simp at hlen
      | cons b u =>
          simp only [List.map_cons, List.zipWith_cons_cons]
          rw [cell_m2_combine n1 n2 a b h1 h2 (hu1 a (by simp)) (hu2 b (by simp)),
            ih u (by simpa using hlen)
              (fun g hg => hu1 g (List.mem_cons_of_mem _ hg))
              (fun g hg => hu2 g (List.mem_cons_of_mem _ hg))]

/-- Claim C2: splitting a tensor along a reduced axis into two sub-batches
and feeding them sequentially to MeanCalculator (resp.
MeanVarStdCalculator) produces, exactly over rational arithmetic, the same
state as feeding the whole tensor in one batch, and hence the same
finalized mean (resp. mean, variance and std); the combination uses the
weighted rule with observation counts given by the reduced element count
of each batch. -/
theorem C2_incremental_equivalence (t1 t2 : NpTensor)
    (h1 : 0 < t1.groupSize) (h2 : 0 < t2.groupSize)
    (hlen : t1.groups.length = t2.groups.length)
    (hu1 : t1.uniform) (hu2 : t2.uniform) :
    (MeanCalculator.updateImpl (MeanCalculator.updateImpl MeanCalculator.State.init t1) t2
      = MeanCalculator.updateImpl MeanCalculator.State.init (t1.concatReduced t2))
    ∧ (MeanVarStdCalculator.updateTensor
        (MeanVarStdCalculator.updateTensor MeanVarStdCalculator.State.init t1) t2
      = MeanVarStdCalculator.updateTensor MeanVarStdCalculator.State.init
          (t1.concatReduced t2))
    ∧ (∀ tid axes,
        MeanCalculator.finalize tid axes
            (MeanCalculator.updateImpl (MeanCalculator.updateImpl
              MeanCalculator.State.init t1) t2)
          = MeanCalculator.finalize tid axes
              (MeanCalculator.updateImpl MeanCalculator.State.init (t1.concatReduced t2)))
    ∧ (∀ sq tid axes,
        MeanVarStdCalculator.finalize sq tid axes
            (MeanVarStdCalculator.updateTensor (MeanVarStdCalculator.updateTensor
              MeanVarStdCalculator.State.init t1) t2)
          = MeanVarStdCalculator.finalize sq tid axes
              (MeanVarStdCalculator.updateTensor MeanVarStdCalculator.State.init
                (t1.concatReduced t2))) := by
  have hmean := mean_lists_combine t1.groupSize t2.groupSize h1 h2 t1.groups t2.groups
    hlen hu1 hu2
  have hm2 := m2_lists_combine t1.groupSize t2.groupSize h1 h2 t1.groups t2.groups
    hlen hu1 hu2
  have e1 : MeanCalculator.updateImpl (MeanCalculator.updateImpl
      MeanCalculator.State.init t1) t2
      = MeanCalculator.updateImpl MeanCalculator.State.init (t1.concatReduced t2) := by
    simp only [MeanCalculator.updateImpl, MeanCalculator.State.init, tensorMean,
      NpTensor.concatReduced]
    rw [hmean]
  have e2 : MeanVarStdCalculator.updateTensor (MeanVarStdCalculator.updateTensor
      MeanVarStdCalculator.State.init t1) t2
      = MeanVarStdCalculator.updateTensor MeanVarStdCalculator.State.init
          (t1.concatReduced t2) := by
    simp only [MeanVarStdCalculator.updateTensor, MeanVarStdCalculator.State.init,
      tensorMean, tensorM2, NpTensor.concatReduced]
    rw [hmean, hm2]
  exact ⟨e1, e2, fun tid axes => by rw [e1], fun sq tid axes => by rw [e2]⟩

/-- Witness for C2: the tensor with groups [[1,2,4],[3,5,7]] split along
the reduced axis into [[1],[3]] and [[2,4],[5,7]]. -/
theorem C2_incremental_equivalence_witness :
    (0 < (({ dtype := DType.float64, groupSize := 1, groups := [[1], [3]] } : NpTensor)).groupSize)
    ∧ (0 < (({ dtype := DType.float64, groupSize := 2, groups := [[2, 4], [5, 7]] } : NpTensor)).groupSize)
    ∧ (({ dtype := DType.float64, groupSize := 1, groups := [[1], [3]] } : NpTensor)).groups.length
        = (({ dtype := DType.float64, groupSize := 2, groups := [[2, 4], [5, 7]] } : NpTensor)).groups.length
    ∧ (({ dtype := DType.float64, groupSize := 1, groups := [[1], [3]] } : NpTensor)).uniform
    ∧ (({ dtype := DType.float64, groupSize := 2, groups := [[2, 4], [5, 7]] } : NpTensor)).uniform
    ∧ MeanCalculator.updateImpl (MeanCalculator.updateImpl MeanCalculator.State.init
        { dtype := DType.float64, groupSize := 1, groups := [[1], [3]] })
        { dtype := DType.float64, groupSize := 2, groups := [[2, 4], [5, 7]] }
      = MeanCalculator.updateImpl MeanCalculator.State.init
          (({ dtype := DType.float64, groupSize := 1, groups := [[1], [3]] } : NpTensor).concatReduced
            { dtype := DType.float64, groupSize := 2, groups := [[2, 4], [5, 7]] })
    ∧ MeanVarStdCalculator.updateTensor (MeanVarStdCalculator.updateTensor
        MeanVarStdCalculator.State.init
        { dtype := DType.float64, groupSize := 1, groups := [[1], [3]] })
        { dtype := DType.float64, groupSize := 2, groups := [[2, 4], [5, 7]] }
      = MeanVarStdCalculator.updateTensor MeanVarStdCalculator.State.init
          (({ dtype := DType.float64, groupSize := 1, groups := [[1], [3]] } : NpTensor).concatReduced
            { dtype := DType.float64, groupSize := 2, groups := [[2, 4], [5, 7]] }) := by
  refine ⟨by decide, by decide, by decide, by decide, by decide, ?_, ?_⟩
  · exact (C2_incremental_equivalence
      { dtype := DType.float64, groupSize := 1, groups := [[1], [3]] }
      { dtype := DType.float64, groupSize := 2, groups := [[2, 4], [5, 7]] }
      (by decide) (by decide) (by decide) (by decide) (by decide)).1
  · exact (C2_incremental_equivalence
      { dtype := DType.float64, groupSize := 1, groups := [[1], [3]] }
      { dtype := DType.float64, groupSize := 2, groups := [[2, 4], [5, 7]] }
      (by decide) (by decide) (by decide) (by decide) (by decide)).2.1

theorem mem_foldl_listInsert {α : Type} [DecidableEq α] :
    ∀ (l acc : List α) (x : α), x ∈ l.foldl listInsert acc ↔ x ∈ acc ∨ x ∈ l := by
  intro l
  induction l with
  | nil => intro acc x; simp
  | cons a tl ih =>
      intro acc x
      simp only [List.foldl_cons]
      rw [ih, mem_listInsert]
      simp only [List.mem_cons]
      tauto

theorem nodup_foldl_listInsert {α : Type} [DecidableEq α] :
    ∀ (l acc : List α), acc.Nodup → (l.foldl listInsert acc).Nodup := by
  intro l
  induction l with
  | nil => intro acc h; simpa
  | cons a tl ih => intro acc h; exact ih _ (nodup_listInsert h a)

theorem mem_foldl_addsStep {α : Type} [DecidableEq α] (adds : α → List α) :
    ∀ (ms acc : List α) (x : α),
      x ∈ ms.foldl (fun acc m => (adds m).foldl listInsert acc) acc
        ↔ x ∈ acc ∨ ∃ m ∈ ms, x ∈ adds m := by
  intro ms
  induction ms with
  | nil => intro acc x; simp
  | cons m tl ih =>
      intro acc x
      simp only [List.foldl_cons]
      rw [ih, mem_foldl_listInsert]
      constructor
      · rintro ((hx | hx) | ⟨m2, hm2, hx⟩)
        · exact Or.inl hx
        · exact Or.inr ⟨m, List.mem_cons_self _ _, hx⟩
        · exact Or.inr ⟨m2, List.mem_cons_of_mem _ hm2, hx⟩
      · rintro (hx | ⟨m2, hm2, hx⟩)
        · exact Or.inl (Or.inl hx)
        · rcases List.mem_cons.mp hm2 with rfl | hm2
          · exact Or.inl (Or.inr hx)
          · exact Or.inr ⟨m2, hm2, hx⟩

theorem nodup_foldl_addsStep {α : Type} [DecidableEq α] (adds : α → List α) :
    ∀ (ms acc : List α), acc.Nodup →
      (ms.foldl (fun acc m => (adds m).foldl listInsert acc) acc).Nodup := by
  intro ms
  induction ms with
  | nil => intro acc h; simpa
  | cons m tl ih => intro acc h; exact ih _ (nodup_foldl_listInsert _ _ h)

theorem sampleMeanStep_eq (acc : List Measure) (m : Measure) :
    sampleMeanStep acc m = (sampleMeanAdds m).foldl listInsert acc := by
  cases m <;> rfl

theorem datasetMeanStep_eq (acc : List Measure) (m : Measure) :
    datasetMeanStep acc m = (datasetMeanAdds m).foldl listInsert acc := by
  cases m <;> rfl

theorem sampleMVSStep_eq (acc : List Measure) (m : Measure) :
    sampleMVSStep acc m = (sampleMVSAdds m).foldl listInsert acc := by
  cases m <;> rfl

theorem datasetMVSStep_eq (acc : List Measure) (m : Measure) :
    datasetMVSStep acc m = (datasetMVSAdds m).foldl listInsert acc := by
  cases m <;> rfl

theorem foldl_sampleMean_eq (ms : List Measure) :
    ms.foldl sampleMeanStep []
      = ms.foldl (fun acc m => (sampleMeanAdds m).foldl listInsert acc) [] := by
  have h : sampleMeanStep = fun acc m => (sampleMeanAdds m).foldl listInsert acc := by
    funext acc m
    exact sampleMeanStep_eq acc m
  rw [h]

theorem foldl_datasetMean_eq (ms : List Measure) :
    ms.foldl datasetMeanStep []
      = ms.foldl (fun acc m => (datasetMeanAdds m).foldl listInsert acc) [] := by
  have h : datasetMeanStep = fun acc m => (datasetMeanAdds m).foldl listInsert acc := by
    funext acc m
    exact datasetMeanStep_eq acc m
  rw [h]

theorem foldl_sampleMVS_eq (ms : List Measure) :
    ms.foldl sampleMVSStep []
      = ms.foldl (fun acc m => (sampleMVSAdds m).foldl listInsert acc) [] := by
  have h : sampleMVSStep = fun acc m => (sampleMVSAdds m).foldl listInsert acc := by
    funext acc m
    exact sampleMVSStep_eq acc m
  rw [h]

theorem foldl_datasetMVS_eq (ms : List Measure) :
    ms.foldl datasetMVSStep []
      = ms.foldl (fun acc m => (datasetMVSAdds m).foldl listInsert acc) [] := by
  have h : datasetMVSStep = fun acc m => (datasetMVSAdds m).foldl listInsert acc := by
    funext acc m
    exact datasetMVSStep_eq acc m
  rw [h]

theorem mem_sampleMVS_iff (ms : List Measure) (x : Measure) :
    x ∈ ms.foldl sampleMVSStep []
      ↔ ∃ t a, (Measure.sampleVar t a ∈ ms ∨ Measure.sampleStd t a ∈ ms)
          ∧ (x = Measure.sampleMean t a ∨ x = Measure.sampleStd t a
              ∨ x = Measure.sampleVar t a) := by
  rw [foldl_sampleMVS_eq, mem_foldl_addsStep]
  simp only [List.not_mem_nil, false_or]
  constructor
  · rintro ⟨m, hm, hx⟩
    cases m with
    | sampleVar t a =>
        exact ⟨t, a, Or.inl hm, by simpa [sampleMVSAdds] using hx⟩
    | sampleStd t a =>
        exact ⟨t, a, Or.inr hm, by simpa [sampleMVSAdds] using hx⟩
    | sampleMean t a => simp [sampleMVSAdds] at hx
    | samplePercentile nn t a => simp [sampleMVSAdds] at hx
    | datasetMean t a => simp [sampleMVSAdds] at hx
    | datasetVar t a => simp [sampleMVSAdds] at hx
    | datasetStd t a => simp [sampleMVSAdds] at hx
    | datasetPercentile nn t a => simp [sampleMVSAdds] at hx
  · rintro ⟨t, a, hreq | hreq, hx⟩
    · exact ⟨Measure.sampleVar t a, hreq, by simpa [sampleMVSAdds] using hx⟩
    · exact ⟨Measure.sampleStd t a, hreq, by simpa [sampleMVSAdds] using hx⟩

theorem mem_datasetMVS_iff (ms : List Measure) (x : Measure) :
    x ∈ ms.foldl datasetMVSStep []
      ↔ ∃ t a, (Measure.datasetVar t a ∈ ms ∨ Measure.datasetStd t a ∈ ms)
          ∧ (x = Measure.datasetMean t a ∨ x = Measure.datasetStd t a
              ∨ x = Measure.datasetVar t a) := by
  rw [foldl_datasetMVS_eq, mem_foldl_addsStep]
  simp only [List.not_mem_nil, false_or]
  constructor
  · rintro ⟨m, hm, hx⟩
    cases m with
    | datasetVar t a =>
        exact ⟨t, a, Or.inl hm, by simpa [datasetMVSAdds] using hx⟩
    | datasetStd t a =>
        exact ⟨t, a, Or.inr hm, by simpa [datasetMVSAdds] using hx⟩
    | sampleMean t a => simp [datasetMVSAdds] at hx
    | sampleVar t a => simp [datasetMVSAdds] at hx
    | sampleStd t a => simp [datasetMVSAdds] at hx
    | samplePercentile nn t a => simp [datasetMVSAdds] at hx
    | datasetMean t a => simp [datasetMVSAdds] at hx
    | datasetPercentile nn t a => simp [datasetMVSAdds] at hx
  · rintro ⟨t, a, hreq | hreq, hx⟩
    · exact ⟨Measure.datasetVar t a, hreq, by simpa [datasetMVSAdds] using hx⟩
    · exact ⟨Measure.datasetStd t a, hreq, by simpa [datasetMVSAdds] using hx⟩

theorem nodup_sampleMVS (ms : List Measure) : (ms.foldl sampleMVSStep []).Nodup := by
  rw [foldl_sampleMVS_eq]
  exact nodup_foldl_addsStep _ ms [] List.nodup_nil

theorem nodup_datasetMVS (ms : List Measure) : (ms.foldl datasetMVSStep []).Nodup := by
  rw [foldl_datasetMVS_eq]
  exact nodup_foldl_addsStep _ ms [] List.nodup_nil

theorem mem_sampleMeans_iff (ms : List Measure) (x : Measure) :
    x ∈ ms.foldl sampleMeanStep []
      ↔ x ∈ ms ∧ ∃ t a, x = Measure.sampleMean t a := by
  rw [foldl_sampleMean_eq, mem_foldl_addsStep]
  simp only [List.not_mem_nil, false_or]
  constructor
  · rintro ⟨m, hm, hx⟩
    cases m with
    | sampleMean t a =>
        simp only [sampleMeanAdds, List.mem_singleton] at hx
        subst hx
        exact ⟨hm, t, a, rfl⟩
    | sampleVar t a => simp [sampleMeanAdds] at hx
    | sampleStd t a => simp [sampleMeanAdds] at hx
    | samplePercentile nn t a => simp [sampleMeanAdds] at hx
    | datasetMean t a => simp [sampleMeanAdds] at hx
    | datasetVar t a => simp [sampleMeanAdds] at hx
    | datasetStd t a => simp [sampleMeanAdds] at hx
    | datasetPercentile nn t a => simp [sampleMeanAdds] at hx
  · rintro ⟨hm, t, a, rfl⟩
    exact ⟨Measure.sampleMean t a, hm, by simp [sampleMeanAdds]⟩

theorem mem_datasetMeans_iff (ms : List Measure) (x : Measure) :
    x ∈ ms.foldl datasetMeanStep []
      ↔ x ∈ ms ∧ ∃ t a, x = Measure.datasetMean t a := by
  rw [foldl_datasetMean_eq, mem_foldl_addsStep]
  simp only [List.not_mem_nil, false_or]
  constructor
  · rintro ⟨m, hm, hx⟩
    cases m with
    | datasetMean t a =>
        simp only [datasetMeanAdds, List.mem_singleton] at hx
        subst hx
        exact ⟨hm, t, a, rfl⟩
    | sampleMean t a => simp [datasetMeanAdds] at hx
    | sampleVar t a => simp [datasetMeanAdds] at hx
    | sampleStd t a => simp [datasetMeanAdds] at hx
    | samplePercentile nn t a => simp [datasetMeanAdds] at hx
    | datasetVar t a => simp [datasetMeanAdds] at hx
    | datasetStd t a => simp [datasetMeanAdds] at hx
    | datasetPercentile nn t a => simp [datasetMeanAdds] at hx
  · rintro ⟨hm, t, a, rfl⟩
    exact ⟨Measure.datasetMean t a, hm, by simp [datasetMeanAdds]⟩

theorem nodup_sampleMeans (ms : List Measure) : (ms.foldl sampleMeanStep []).Nodup := by
  rw [foldl_sampleMean_eq]
  exact nodup_foldl_addsStep _ ms [] List.nodup_nil

theorem nodup_datasetMeans (ms : List Measure) : (ms.foldl datasetMeanStep []).Nodup := by
  rw [foldl_datasetMean_eq]
  exact nodup_foldl_addsStep _ ms [] List.nodup_nil

theorem sampleMean_mem_sampleMVS_iff (ms : List Measure) (t : TensorId) (a : Axes) :
    Measure.sampleMean t a ∈ ms.foldl sampleMVSStep []
      ↔ (Measure.sampleVar t a ∈ ms ∨ Measure.sampleStd t a ∈ ms) := by
  rw [mem_sampleMVS_iff]
  constructor
  · rintro ⟨t2, a2, hreq, h | h | h⟩
    · obtain ⟨rfl, rfl⟩ := Measure.sampleMean.inj h
      exact hreq
    · exact absurd h (by simp)
    · exact absurd h (by simp)
  · intro h
    exact ⟨t, a, h, Or.inl rfl⟩

theorem datasetMean_mem_datasetMVS_iff (ms : List Measure) (t : TensorId) (a : Axes) :
    Measure.datasetMean t a ∈ ms.foldl datasetMVSStep []
      ↔ (Measure.datasetVar t a ∈ ms ∨ Measure.datasetStd t a ∈ ms) := by
  rw [mem_datasetMVS_iff]
  constructor
  · rintro ⟨t2, a2, hreq, h | h | h⟩
    · obtain ⟨rfl, rfl⟩ := Measure.datasetMean.inj h
      exact hreq
    · exact absurd h (by simp)
    · exact absurd h (by simp)
  · intro h
    exact ⟨t, a, h, Or.inl rfl⟩

theorem dictKeys_dictAddRank (d : List ((TensorId × Axes) × List ℚ)) (k : TensorId × Axes)
    (nn : ℚ) : dictKeys (dictAddRank d k nn) = listInsert (dictKeys d) k := by
  induction d with
  | nil => simp [dictAddRank, dictKeys, listInsert]
  | cons kv rest ih =>
      obtain ⟨k0, s0⟩ := kv
      by_cases h : k0 = k
      · subst h
        simp [dictAddRank, dictKeys, listInsert]
      · have ih2 : List.map Prod.fst (dictAddRank rest k nn)
            = listInsert (List.map Prod.fst rest) k := ih
        simp only [dictAddRank, if_neg h, dictKeys, List.map_cons]
        rw [ih2]
        unfold listInsert
        by_cases hk : k ∈ rest.map Prod.fst
        · rw [if_pos hk, if_pos (List.mem_cons_of_mem _ hk)]
        · rw [if_neg hk, if_neg ?_]
          · simp
          · simp only [List.mem_cons]
            rintro (h2 | h2)
            · exact h h2.symm
            · exact hk h2

theorem dictKeys_foldl_percStep (keyOf : Measure → Option ((TensorId × Axes) × ℚ)) :
    ∀ (ms : List Measure) (acc : List ((TensorId × Axes) × List ℚ)),
      dictKeys (ms.foldl (fun acc m =>
          match keyOf m with
          | some p => dictAddRank acc p.1 p.2
          | none => acc) acc)
        = ms.foldl (fun ks m =>
            match keyOf m with
            | some p => listInsert ks p.1
            | none => ks) (dictKeys acc) := by
  intro ms
  induction ms with
  | nil => intro acc; rfl
  | cons m tl ih =>
      intro acc
      simp only [List.foldl_cons]
      cases hk : keyOf m with
      | none => exact ih acc
      | some p => rw [ih (dictAddRank acc p.1 p.2), dictKeys_dictAddRank]

theorem mem_foldl_keyInsert (keyOf : Measure → Option ((TensorId × Axes) × ℚ)) :
    ∀ (ms : List Measure) (ks : List (TensorId × Axes)) (k : TensorId × Axes),
      k ∈ ms.foldl (fun ks m =>
          match keyOf m with
          | some p => listInsert ks p.1
          | none => ks) ks
        ↔ k ∈ ks ∨ ∃ m ∈ ms, ∃ p, keyOf m = some p ∧ p.1 = k := by
  intro ms
  induction ms with
  | nil => intro ks k; simp
  | cons m tl ih =>
      intro ks k
      simp only [List.foldl_cons]
      cases hk : keyOf m with
      | none =>
          rw [ih]
          constructor
          · rintro (h | ⟨m2, hm2, p, hp, h1⟩)
            · exact Or.inl h
            · exact Or.inr ⟨m2, List.mem_cons_of_mem _ hm2, p, hp, h1⟩
          · rintro (h | ⟨m2, hm2, p, hp, h1⟩)
            · exact Or.inl h
            · rcases List.mem_cons.mp hm2 with rfl | hm2
              · rw [hk] at hp
                exact absurd hp (by simp)
              · exact Or.inr ⟨m2, hm2, p, hp, h1⟩
      | some p =>
          rw [ih, mem_listInsert]
          constructor
          · rintro ((h | h) | ⟨m2, hm2, p2, hp2, h1⟩)
            · exact Or.inl h
            · exact Or.inr ⟨m, List.mem_cons_self _ _, p, hk, h.symm⟩
            · exact Or.inr ⟨m2, List.mem_cons_of_mem _ hm2, p2, hp2, h1⟩
          · rintro (h | ⟨m2, hm2, p2, hp2, h1⟩)
            · exact Or.inl (Or.inl h)
            · rcases List.mem_cons.mp hm2 with rfl | hm2
              · rw [hk] at hp2
                obtain rfl := Option.some.inj hp2
                exact Or.inl (Or.inr h1.symm)
              · exact Or.inr ⟨m2, hm2, p2, hp2, h1⟩

theorem nodup_foldl_keyInsert (keyOf : Measure → Option ((TensorId × Axes) × ℚ)) :
    ∀ (ms : List Measure) (ks : List (TensorId × Axes)), ks.Nodup →
      (ms.foldl (fun ks m =>
          match keyOf m with
          | some p => listInsert ks p.1
          | none => ks) ks).Nodup := by
  intro ms
  induction ms with
  | nil => intro ks h; simpa
  | cons m tl ih =>
      intro ks h
      simp only [List.foldl_cons]
      cases hk : keyOf m with
      | none => exact ih ks h
      | some p => exact ih _ (nodup_listInsert h p.1)

theorem samplePercStep_eq (acc : List ((TensorId × Axes) × List ℚ)) (m : Measure) :
    samplePercStep acc m
      = (match samplePercKey m with
          | some p => dictAddRank acc p.1 p.2
          | none => acc) := by
  cases m <;> rfl

theorem datasetPercStep_eq (acc : List ((TensorId × Axes) × List ℚ)) (m : Measure) :
    datasetPercStep acc m
      = (match datasetPercKey m with
          | some p => dictAddRank acc p.1 p.2
          | none => acc) := by
  cases m <;> rfl

theorem foldl_samplePerc_eq (ms : List Measure) :
    ms.foldl samplePercStep []
      = ms.foldl (fun acc m =>
          match samplePercKey m with
          | some p => dictAddRank acc p.1 p.2
          | none => acc) [] := by
  have h : samplePercStep = fun acc m =>
      match samplePercKey m with
      | some p => dictAddRank acc p.1 p.2
      | none => acc := by
    funext acc m
    exact samplePercStep_eq acc m
  rw [h]

theorem foldl_datasetPerc_eq (ms : List Measure) :
    ms.foldl datasetPercStep []
      = ms.foldl (fun acc m =>
          match datasetPercKey m with
          | some p => dictAddRank acc p.1 p.2
          | none => acc) [] := by
  have h : datasetPercStep = fun acc m =>
      match datasetPercKey m with
      | some p => dictAddRank acc p.1 p.2
      | none => acc := by
    funext acc m
    exact datasetPercStep_eq acc m
  rw [h]

theorem mem_keys_samplePerc_iff (ms : List Measure) (k : TensorId × Axes) :
    k ∈ dictKeys (ms.foldl samplePercStep [])
      ↔ ∃ nn, Measure.samplePercentile nn k.1 k.2 ∈ ms := by
  rw [foldl_samplePerc_eq, dictKeys_foldl_percStep, mem_foldl_keyInsert]
  constructor
  · rintro (h | ⟨m, hm, p, hp, h1⟩)
    · simp [dictKeys] at h
    · cases m with
      | samplePercentile nn t a =>
          simp only [samplePercKey] at hp
          obtain rfl := Option.some.inj hp
          subst h1
          exact ⟨nn, hm⟩
      | sampleMean t a => simp [samplePercKey] at hp
      | sampleVar t a => simp [samplePercKey] at hp
      | sampleStd t a => simp [samplePercKey] at hp
      | datasetMean t a => simp [samplePercKey] at hp
      | datasetVar t a => simp [samplePercKey] at hp
      | datasetStd t a => simp [samplePercKey] at hp
      | datasetPercentile nn t a => simp [samplePercKey] at hp
  · rintro ⟨nn, hm⟩
    exact Or.inr ⟨Measure.samplePercentile nn k.1 k.2, hm, ((k.1, k.2), nn), rfl, rfl⟩

theorem mem_keys_datasetPerc_iff (ms : List Measure) (k : TensorId × Axes) :
    k ∈ dictKeys (ms.foldl datasetPercStep [])
      ↔ ∃ nn, Measure.datasetPercentile nn k.1 k.2 ∈ ms := by
  rw [foldl_datasetPerc_eq, dictKeys_foldl_percStep, mem_foldl_keyInsert]
  constructor
  · rintro (h | ⟨m, hm, p, hp, h1⟩)
    · simp [dictKeys] at h
    · cases m with
      | datasetPercentile nn t a =>
          simp only [datasetPercKey] at hp
          obtain rfl := Option.some.inj hp
          subst h1
          exact ⟨nn, hm⟩
      | sampleMean t a => simp [datasetPercKey] at hp
      | sampleVar t a => simp [datasetPercKey] at hp
      | sampleStd t a => simp [datasetPercKey] at hp
      | samplePercentile nn t a => simp [datasetPercKey] at hp
      | datasetMean t a => simp [datasetPercKey] at hp
      | datasetVar t a => simp [datasetPercKey] at hp
      | datasetStd t a => simp [datasetPercKey] at hp
  · rintro ⟨nn, hm⟩
    exact Or.inr ⟨Measure.datasetPercentile nn k.1 k.2, hm, ((k.1, k.2), nn), rfl, rfl⟩

theorem nodup_keys_samplePerc (ms : List Measure) :
    (dictKeys (ms.foldl samplePercStep [])).Nodup := by
  rw [foldl_samplePerc_eq, dictKeys_foldl_percStep]
  exact nodup_foldl_keyInsert _ ms [] List.nodup_nil

theorem nodup_keys_datasetPerc (ms : List Measure) :
    (dictKeys (ms.foldl datasetPercStep [])).Nodup := by
  rw [foldl_datasetPerc_eq, dictKeys_foldl_percStep]
  exact nodup_foldl_keyInsert _ ms [] List.nodup_nil

theorem planner_sample_mvs_count (crick : Bool) (ms : List Measure) (t : TensorId)
    (a : Axes) :
    (get_measure_calculators crick ms).1.countP (isSampleMVSCalcFor t a)
      = List.countP (fun m => decide (m.tensor_id = t ∧ m.axes = a))
          (ms.foldl sampleMVSStep []) := by
  simp only [get_measure_calculators]
  rw [List.countP_append, List.countP_append, List.countP_map, List.countP_map,
    List.countP_map]
  have hA : List.countP
      ((isSampleMVSCalcFor t a) ∘ fun m => SCalc.meanCalc m.tensor_id m.axes)
      ((ms.foldl sampleMeanStep []).filter
        (fun m => decide (m ∉ ms.foldl sampleMVSStep []))) = 0 := by
    rw [List.countP_eq_zero]
    intro m _ hc
    simp [isSampleMVSCalcFor] at hc
  have hC : List.countP
      ((isSampleMVSCalcFor t a) ∘ fun kv => SCalc.percentiles kv.1.1 kv.1.2 kv.2)
      (ms.foldl samplePercStep []) = 0 := by
    rw [List.countP_eq_zero]
    intro kv _ hc
    simp [isSampleMVSCalcFor] at hc
  rw [hA, hC]
  have hB : List.countP
      ((isSampleMVSCalcFor t a) ∘ fun m => SCalc.meanVarStd m.tensor_id m.axes)
      (ms.foldl sampleMVSStep [])
      = List.countP (fun m => decide (m.tensor_id = t ∧ m.axes = a))
          (ms.foldl sampleMVSStep []) := by
    apply List.countP_congr
    intro m _
    simp [isSampleMVSCalcFor]
  rw [hB]
  omega

theorem planner_sample_mean_count (crick : Bool) (ms : List Measure) (t : TensorId)
    (a : Axes) :
    (get_measure_calculators crick ms).1.countP (isSampleMeanCalcFor t a)
      = List.countP (fun m => decide (m.tensor_id = t ∧ m.axes = a)
            && decide (m ∉ ms.foldl sampleMVSStep []))
          (ms.foldl sampleMeanStep []) := by
  simp only [get_measure_calculators]
  rw [List.countP_append, List.countP_append, List.countP_map, List.countP_map,
    List.countP_map]
  have hB : List.countP
      ((isSampleMeanCalcFor t a) ∘ fun m => SCalc.meanVarStd m.tensor_id m.axes)
      (ms.foldl sampleMVSStep []) = 0 := by
    rw [List.countP_eq_zero]
    intro m _ hc
    simp [isSampleMeanCalcFor] at hc
  have hC : List.countP
      ((isSampleMeanCalcFor t a) ∘ fun kv => SCalc.percentiles kv.1.1 kv.1.2 kv.2)
      (ms.foldl samplePercStep []) = 0 := by
    rw [List.countP_eq_zero]
    intro kv _ hc
    simp [isSampleMeanCalcFor] at hc
  rw [hB, hC]
  rw [List.countP_filter]
  have hA : List.countP
      (fun m => ((isSampleMeanCalcFor t a) ∘ fun m => SCalc.meanCalc m.tensor_id m.axes) m
        && decide (m ∉ ms.foldl sampleMVSStep []))
      (ms.foldl sampleMeanStep [])
      = List.countP (fun m => decide (m.tensor_id = t ∧ m.axes = a)
            && decide (m ∉ ms.foldl sampleMVSStep []))
          (ms.foldl sampleMeanStep []) := by
    apply List.countP_congr
    intro m _
    simp [isSampleMeanCalcFor]
  rw [hA]
  omega

theorem planner_sample_perc_count (crick : Bool) (ms : List Measure) (t : TensorId)
    (a : Axes) :
    (get_measure_calculators crick ms).1.countP (isSamplePercCalcFor t a)
      = List.countP (fun k => decide (k.1 = t ∧ k.2 = a))
          (dictKeys (ms.foldl samplePercStep [])) := by
  simp only [get_measure_calculators]
  rw [List.countP_append, List.countP_append, List.countP_map, List.countP_map,
    List.countP_map]
  have hA : List.countP
      ((isSamplePercCalcFor t a) ∘ fun m => SCalc.meanCalc m.tensor_id m.axes)
      ((ms.foldl sampleMeanStep []).filter
        (fun m => decide (m ∉ ms.foldl sampleMVSStep []))) = 0 := by
    rw [List.countP_eq_zero]
    intro m _ hc
    simp [isSamplePercCalcFor] at hc
  have hB : List.countP
      ((isSamplePercCalcFor t a) ∘ fun m => SCalc.meanVarStd m.tensor_id m.axes)
      (ms.foldl sampleMVSStep []) = 0 := by
    rw [List.countP_eq_zero]
    intro m _ hc
    simp [isSamplePercCalcFor] at hc
  rw [hA, hB]
  have hC : List.countP
      ((isSamplePercCalcFor t a) ∘ fun kv => SCalc.percentiles kv.1.1 kv.1.2 kv.2)
      (ms.foldl samplePercStep [])
      = List.countP ((fun k => decide (k.1 = t ∧ k.2 = a)) ∘ Prod.fst)
          (ms.foldl samplePercStep []) := by
    apply List.countP_congr
    intro kv _
    simp [isSamplePercCalcFor, Function.comp]
  rw [hC, dictKeys, List.countP_map]
  omega

theorem planner_dataset_mvs_count (crick : Bool) (ms : List Measure) (t : TensorId)
    (a : Axes) :
    (get_measure_calculators crick ms).2.countP (isDatasetMVSCalcFor t a)
      = List.countP (fun m => decide (m.tensor_id = t ∧ m.axes = a))
          (ms.foldl datasetMVSStep []) := by
  simp only [get_measure_calculators]
  rw [List.countP_append, List.countP_append, List.countP_map, List.countP_map,
    List.countP_map]
  have hA : List.countP
      ((isDatasetMVSCalcFor t a) ∘
        fun m => DCalc.meanCalc m.tensor_id m.axes MeanCalculator.State.init)
      ((ms.foldl datasetMeanStep []).filter
        (fun m => decide (m ∉ ms.foldl datasetMVSStep []))) = 0 := by
    rw [List.countP_eq_zero]
    intro m _ hc
    simp [isDatasetMVSCalcFor] at hc
  have hC : List.countP
      ((isDatasetMVSCalcFor t a) ∘ fun kv =>
        if crick then
          DCalc.crickPercentiles kv.1.1 kv.1.2 kv.2 CrickPercentilesCalculator.State.init
        else
          DCalc.meanPercentiles kv.1.1 kv.1.2 kv.2 MeanPercentilesCalculator.State.init)
      (ms.foldl datasetPercStep []) = 0 := by
    rw [List.countP_eq_zero]
    intro kv _ hc
    cases crick <;> simp [isDatasetMVSCalcFor] at hc
  rw [hA, hC]
  have hB : List.countP
      ((isDatasetMVSCalcFor t a) ∘
        fun m => DCalc.meanVarStd m.tensor_id m.axes MeanVarStdCalculator.State.init)
      (ms.foldl datasetMVSStep [])
      = List.countP (fun m => decide (m.tensor_id = t ∧ m.axes = a))
          (ms.foldl datasetMVSStep []) := by
    apply List.countP_congr
    intro m _
    simp [isDatasetMVSCalcFor]
  rw [hB]
  omega

theorem planner_dataset_mean_count (crick : Bool) (ms : List Measure) (t : TensorId)
    (a : Axes) :
    (get_measure_calculators crick ms).2.countP (isDatasetMeanCalcFor t a)
      = List.countP (fun m => decide (m.tensor_id = t ∧ m.axes = a)
            && decide (m ∉ ms.foldl datasetMVSStep []))
          (ms.foldl datasetMeanStep []) := by
  simp only [get_measure_calculators]
  rw [List.countP_append, List.countP_append, List.countP_map, List.countP_map,
    List.countP_map]
  have hB : List.countP
      ((isDatasetMeanCalcFor t a) ∘
        fun m => DCalc.meanVarStd m.tensor_id m.axes MeanVarStdCalculator.State.init)
      (ms.foldl datasetMVSStep []) = 0 := by
    rw [List.countP_eq_zero]
    intro m _ hc
    simp [isDatasetMeanCalcFor] at hc
  have hC : List.countP
      ((isDatasetMeanCalcFor t a) ∘ fun kv =>
        if crick then
          DCalc.crickPercentiles kv.1.1 kv.1.2 kv.2 CrickPercentilesCalculator.State.init
        else
          DCalc.meanPercentiles kv.1.1 kv.1.2 kv.2 MeanPercentilesCalculator.State.init)
      (ms.foldl datasetPercStep []) = 0 := by
    rw [List.countP_eq_zero]
    intro kv _ hc
    cases crick <;> simp [isDatasetMeanCalcFor] at hc
  rw [hB, hC]
  rw [List.countP_filter]
  have hA : List.countP
      (fun m => ((isDatasetMeanCalcFor t a) ∘
          fun m => DCalc.meanCalc m.tensor_id m.axes MeanCalculator.State.init) m
        && decide (m ∉ ms.foldl datasetMVSStep []))
      (ms.foldl datasetMeanStep [])
      = List.countP (fun m => decide (m.tensor_id = t ∧ m.axes = a)
            && decide (m ∉ ms.foldl datasetMVSStep []))
          (ms.foldl datasetMeanStep []) := by
    apply List.countP_congr
    intro m _
    simp [isDatasetMeanCalcFor]
  rw [hA]
  omega

theorem planner_dataset_perc_count (crick : Bool) (ms : List Measure) (t : TensorId)
    (a : Axes) :
    (get_measure_calculators crick ms).2.countP (isDatasetPercCalcFor t a)
      = List.countP (fun k => decide (k.1 = t ∧ k.2 = a))
          (dictKeys (ms.foldl datasetPercStep [])) := by
  simp only [get_measure_calculators]
  rw [List.countP_append, List.countP_append, List.countP_map, List.countP_map,
    List.countP_map]
  have hA : List.countP
      ((isDatasetPercCalcFor t a) ∘
        fun m => DCalc.meanCalc m.tensor_id m.axes MeanCalculator.State.init)
      ((ms.foldl datasetMeanStep []).filter
        (fun m => decide (m ∉ ms.foldl datasetMVSStep []))) = 0 := by
    rw [List.countP_eq_zero]
    intro m _ hc
    simp [isDatasetPercCalcFor] at hc
  have hB : List.countP
      ((isDatasetPercCalcFor t a) ∘
        fun m => DCalc.meanVarStd m.tensor_id m.axes MeanVarStdCalculator.State.init)
      (ms.foldl datasetMVSStep []) = 0 := by
    rw [List.countP_eq_zero]
    intro m _ hc
    simp [isDatasetPercCalcFor] at hc
  rw [hA, hB]
  have hC : List.countP
      ((isDatasetPercCalcFor t a) ∘ fun kv =>
        if crick then
          DCalc.crickPercentiles kv.1.1 kv.1.2 kv.2 CrickPercentilesCalculator.State.init
        else
          DCalc.meanPercentiles kv.1.1 kv.1.2 kv.2 MeanPercentilesCalculator.State.init)
      (ms.foldl datasetPercStep [])
      = List.countP ((fun k => decide (k.1 = t ∧ k.2 = a)) ∘ Prod.fst)
          (ms.foldl datasetPercStep []) := by
    apply List.countP_congr
    intro kv _
    cases crick <;> simp [isDatasetPercCalcFor, Function.comp]
  rw [hC, dictKeys, List.countP_map]
  omega

theorem countP_key_sampleMVS (ms : List Measure) (t : TensorId) (a : Axes) :
    ((Measure.sampleVar t a ∈ ms ∨ Measure.sampleStd t a ∈ ms) →
      List.countP (fun m => decide (m.tensor_id = t ∧ m.axes = a))
        (ms.foldl sampleMVSStep []) = 3)
    ∧ (¬(Measure.sampleVar t a ∈ ms ∨ Measure.sampleStd t a ∈ ms) →
      List.countP (fun m => decide (m.tensor_id = t ∧ m.axes = a))
        (ms.foldl sampleMVSStep []) = 0) := by
  constructor
  · intro hreq
    rw [List.countP_eq_length_filter]
    have hnd : ((ms.foldl sampleMVSStep []).filter
        (fun m => decide (m.tensor_id = t ∧ m.axes = a))).Nodup :=
      (nodup_sampleMVS ms).filter _
    have htr : ([Measure.sampleMean t a, Measure.sampleStd t a,
        Measure.sampleVar t a]).Nodup := by simp
    have hiff : ∀ x, x ∈ (ms.foldl sampleMVSStep []).filter
        (fun m => decide (m.tensor_id = t ∧ m.axes = a))
        ↔ x ∈ [Measure.sampleMean t a, Measure.sampleStd t a, Measure.sampleVar t a] := by
      intro x
      rw [List.mem_filter, mem_sampleMVS_iff]
      constructor
      · rintro ⟨⟨t2, a2, hreq2, hx | hx | hx⟩, hkey⟩ <;>
          (subst hx
           simp only [Measure.tensor_id, Measure.axes, decide_eq_true_eq] at hkey
           obtain ⟨rfl, rfl⟩ := hkey
           simp)
      · intro hx
        have hx2 : x = Measure.sampleMean t a ∨ x = Measure.sampleStd t a
            ∨ x = Measure.sampleVar t a := by simpa using hx
        rcases hx2 with rfl | rfl | rfl <;>
          exact ⟨⟨t, a, hreq, by simp⟩, by simp [Measure.tensor_id, Measure.axes]⟩
    have hperm := (List.perm_ext_iff_of_nodup hnd htr).mpr hiff
    rw [hperm.length_eq]
    rfl
  · intro hreq
    rw [List.countP_eq_zero]
    intro m hm hkey
    obtain ⟨t2, a2, hreq2, hx⟩ := (mem_sampleMVS_iff ms m).mp hm
    rcases hx with rfl | rfl | rfl <;>
      (simp only [Measure.tensor_id, Measure.axes, decide_eq_true_eq] at hkey
       obtain ⟨rfl, rfl⟩ := hkey
       exact hreq hreq2)

theorem countP_key_datasetMVS (ms : List Measure) (t : TensorId) (a : Axes) :
    ((Measure.datasetVar t a ∈ ms ∨ Measure.datasetStd t a ∈ ms) →
      List.countP (fun m => decide (m.tensor_id = t ∧ m.axes = a))
        (ms.foldl datasetMVSStep []) = 3)
    ∧ (¬(Measure.datasetVar t a ∈ ms ∨ Measure.datasetStd t a ∈ ms) →
      List.countP (fun m => decide (m.tensor_id = t ∧ m.axes = a))
        (ms.foldl datasetMVSStep []) = 0) := by
  constructor
  · intro hreq
    rw [List.countP_eq_length_filter]
    have hnd : ((ms.foldl datasetMVSStep []).filter
        (fun m => decide (m.tensor_id = t ∧ m.axes = a))).Nodup :=
      (nodup_datasetMVS ms).filter _
    have htr : ([Measure.datasetMean t a, Measure.datasetStd t a,
        Measure.datasetVar t a]).Nodup := by simp
    have hiff : ∀ x, x ∈ (ms.foldl datasetMVSStep []).filter
        (fun m => decide (m.tensor_id = t ∧ m.axes = a))
        ↔ x ∈ [Measure.datasetMean t a, Measure.datasetStd t a,
            Measure.datasetVar t a] := by
      intro x
      rw [List.mem_filter, mem_datasetMVS_iff]
      constructor
      · rintro ⟨⟨t2, a2, hreq2, hx | hx | hx⟩, hkey⟩ <;>
          (subst hx
           simp only [Measure.tensor_id, Measure.axes, decide_eq_true_eq] at hkey
           obtain ⟨rfl, rfl⟩ := hkey
           simp)
      · intro hx
        have hx2 : x = Measure.datasetMean t a ∨ x = Measure.datasetStd t a
            ∨ x = Measure.datasetVar t a := by simpa using hx
        rcases hx2 with rfl | rfl | rfl <;>
          exact ⟨⟨t, a, hreq, by simp⟩, by simp [Measure.tensor_id, Measure.axes]⟩
    have hperm := (List.perm_ext_iff_of_nodup hnd htr).mpr hiff
    rw [hperm.length_eq]
    rfl
  · intro hreq
    rw [List.countP_eq_zero]
    intro m hm hkey
    obtain ⟨t2, a2, hreq2, hx⟩ := (mem_datasetMVS_iff ms m).mp hm
    rcases hx with rfl | rfl | rfl <;>
      (simp only [Measure.tensor_id, Measure.axes, decide_eq_true_eq] at hkey
       obtain ⟨rfl, rfl⟩ := hkey
       exact hreq hreq2)

theorem countP_key_sampleMean (ms : List Measure) (t : TensorId) (a : Axes) :
    ((Measure.sampleMean t a ∈ ms
        ∧ ¬(Measure.sampleVar t a ∈ ms ∨ Measure.sampleStd t a ∈ ms)) →
      List.countP (fun m => decide (m.tensor_id = t ∧ m.axes = a)
            && decide (m ∉ ms.foldl sampleMVSStep []))
        (ms.foldl sampleMeanStep []) = 1)
    ∧ (¬(Measure.sampleMean t a ∈ ms
        ∧ ¬(Measure.sampleVar t a ∈ ms ∨ Measure.sampleStd t a ∈ ms)) →
      List.countP (fun m => decide (m.tensor_id = t ∧ m.axes = a)
            && decide (m ∉ ms.foldl sampleMVSStep []))
        (ms.foldl sampleMeanStep []) = 0) := by
  constructor
  · rintro ⟨hmem, hnoreq⟩
    rw [List.countP_eq_length_filter]
    have hnd : ((ms.foldl sampleMeanStep []).filter
        (fun m => decide (m.tensor_id = t ∧ m.axes = a)
          && decide (m ∉ ms.foldl sampleMVSStep []))).Nodup :=
      (nodup_sampleMeans ms).filter _
    have hone : ([Measure.sampleMean t a]).Nodup := by simp
    have hiff : ∀ x, x ∈ (ms.foldl sampleMeanStep []).filter
        (fun m => decide (m.tensor_id = t ∧ m.axes = a)
          && decide (m ∉ ms.foldl sampleMVSStep []))
        ↔ x ∈ [Measure.sampleMean t a] := by
      intro x
      rw [List.mem_filter, mem_sampleMeans_iff]
      constructor
      · rintro ⟨⟨_, t2, a2, rfl⟩, hkey⟩
        simp only [Bool.and_eq_true, Measure.tensor_id, Measure.axes,
          decide_eq_true_eq] at hkey
        obtain ⟨⟨rfl, rfl⟩, _⟩ := hkey
        simp
      · intro hx
        have hx2 : x = Measure.sampleMean t a := by simpa using hx
        subst hx2
        refine ⟨⟨hmem, t, a, rfl⟩, ?_⟩
        simp only [Bool.and_eq_true, Measure.tensor_id, Measure.axes,
          decide_eq_true_eq]
        exact ⟨by simp, fun hc =>
          hnoreq ((sampleMean_mem_sampleMVS_iff ms t a).mp hc)⟩
    have hperm := (List.perm_ext_iff_of_nodup hnd hone).mpr hiff
    rw [hperm.length_eq]
    rfl
  · intro hneg
    rw [List.countP_eq_zero]
    intro m hm hkey
    obtain ⟨hmem, t2, a2, rfl⟩ := (mem_sampleMeans_iff ms m).mp hm
    simp only [Bool.and_eq_true, Measure.tensor_id, Measure.axes,
      decide_eq_true_eq] at hkey
    obtain ⟨⟨rfl, rfl⟩, hnotin⟩ := hkey
    exact hneg ⟨hmem, fun hreq =>
      hnotin ((sampleMean_mem_sampleMVS_iff ms t2 a2).mpr hreq)⟩

theorem countP_key_datasetMean (ms : List Measure) (t : TensorId) (a : Axes) :
    ((Measure.datasetMean t a ∈ ms
        ∧ ¬(Measure.datasetVar t a ∈ ms ∨ Measure.datasetStd t a ∈ ms)) →
      List.countP (fun m => decide (m.tensor_id = t ∧ m.axes = a)
            && decide (m ∉ ms.foldl datasetMVSStep []))
        (ms.foldl datasetMeanStep []) = 1)
    ∧ (¬(Measure.datasetMean t a ∈ ms
        ∧ ¬(Measure.datasetVar t a ∈ ms ∨ Measure.datasetStd t a ∈ ms)) →
      List.countP (fun m => decide (m.tensor_id = t ∧ m.axes = a)
            && decide (m ∉ ms.foldl datasetMVSStep []))
        (ms.foldl datasetMeanStep []) = 0) := by
  constructor
  · rintro ⟨hmem, hnoreq⟩
    rw [List.countP_eq_length_filter]
    have hnd : ((ms.foldl datasetMeanStep []).filter
        (fun m => decide (m.tensor_id = t ∧ m.axes = a)
          && decide (m ∉ ms.foldl datasetMVSStep []))).Nodup :=
      (nodup_datasetMeans ms).filter _
    have hone : ([Measure.datasetMean t a]).Nodup := by simp
    have hiff : ∀ x, x ∈ (ms.foldl datasetMeanStep []).filter
        (fun m => decide (m.tensor_id = t ∧ m.axes = a)
          && decide (m ∉ ms.foldl datasetMVSStep []))
        ↔ x ∈ [Measure.datasetMean t a] := by
      intro x
      rw [List.mem_filter, mem_datasetMeans_iff]
      constructor
      · rintro ⟨⟨_, t2, a2, rfl⟩, hkey⟩
        simp only [Bool.and_eq_true, Measure.tensor_id, Measure.axes,
          decide_eq_true_eq] at hkey
        obtain ⟨⟨rfl, rfl⟩, _⟩ := hkey
        simp
      · intro hx
        have hx2 : x = Measure.datasetMean t a := by simpa using hx
        subst hx2
        refine ⟨⟨hmem, t, a, rfl⟩, ?_⟩
        simp only [Bool.and_eq_true, Measure.tensor_id, Measure.axes,
          decide_eq_true_eq]
        exact ⟨by simp, fun hc =>
          hnoreq ((datasetMean_mem_datasetMVS_iff ms t a).mp hc)⟩
    have hperm := (List.perm_ext_iff_of_nodup hnd hone).mpr hiff
    rw [hperm.length_eq]
    rfl
  · intro hneg
    rw [List.countP_eq_zero]
    intro m hm hkey
    obtain ⟨hmem, t2, a2, rfl⟩ := (mem_datasetMeans_iff ms m).mp hm
    simp only [Bool.and_eq_true, Measure.tensor_id, Measure.axes,
      decide_eq_true_eq] at hkey
    obtain ⟨⟨rfl, rfl⟩, hnotin⟩ := hkey
    exact hneg ⟨hmem, fun hreq =>
      hnotin ((datasetMean_mem_datasetMVS_iff ms t2 a2).mpr hreq)⟩

theorem countP_key_samplePerc (ms : List Measure) (t : TensorId) (a : Axes) :
    ((∃ nn, Measure.samplePercentile nn t a ∈ ms) →
      List.countP (fun k => decide (k.1 = t ∧ k.2 = a))
        (dictKeys (ms.foldl samplePercStep [])) = 1)
    ∧ (¬(∃ nn, Measure.samplePercentile nn t a ∈ ms) →
      List.countP (fun k => decide (k.1 = t ∧ k.2 = a))
        (dictKeys (ms.foldl samplePercStep [])) = 0) := by
  constructor
  · intro hreq
    rw [List.countP_eq_length_filter]
    have hnd : ((dictKeys (ms.foldl samplePercStep [])).filter
        (fun k => decide (k.1 = t ∧ k.2 = a))).Nodup :=
      (nodup_keys_samplePerc ms).filter _
    have hone : ([((t, a) : TensorId × Axes)]).Nodup := by simp
    have hiff : ∀ x, x ∈ (dictKeys (ms.foldl samplePercStep [])).filter
        (fun k => decide (k.1 = t ∧ k.2 = a))
        ↔ x ∈ [((t, a) : TensorId × Axes)] := by
      intro x
      rw [List.mem_filter]
      constructor
      · rintro ⟨_, hkey⟩
        simp only [decide_eq_true_eq] at hkey
        obtain ⟨h1, h2⟩ := hkey
        simp [Prod.ext_iff, h1, h2]
      · intro hx
        have hx2 : x = ((t, a) : TensorId × Axes) := by simpa using hx
        subst hx2
        exact ⟨(mem_keys_samplePerc_iff ms (t, a)).mpr hreq, by simp⟩
    have hperm := (List.perm_ext_iff_of_nodup hnd hone).mpr hiff
    rw [hperm.length_eq]
    rfl
  · intro hreq
    rw [List.countP_eq_zero]
    intro k hk hkey
    simp only [decide_eq_true_eq] at hkey
    obtain ⟨h1, h2⟩ := hkey
    obtain ⟨nn, hmem⟩ := (mem_keys_samplePerc_iff ms k).mp hk
    rw [h1, h2] at hmem
    exact hreq ⟨nn, hmem⟩

theorem countP_key_datasetPerc (ms : List Measure) (t : TensorId) (a : Axes) :
    ((∃ nn, Measure.datasetPercentile nn t a ∈ ms) →
      List.countP (fun k => decide (k.1 = t ∧ k.2 = a))
        (dictKeys (ms.foldl datasetPercStep [])) = 1)
    ∧ (¬(∃ nn, Measure.datasetPercentile nn t a ∈ ms) →
      List.countP (fun k => decide (k.1 = t ∧ k.2 = a))
        (dictKeys (ms.foldl datasetPercStep [])) = 0) := by
  constructor
  · intro hreq
    rw [List.countP_eq_length_filter]
    have hnd : ((dictKeys (ms.foldl datasetPercStep [])).filter
        (fun k => decide (k.1 = t ∧ k.2 = a))).Nodup :=
      (nodup_keys_datasetPerc ms).filter _
    have hone : ([((t, a) : TensorId × Axes)]).Nodup := by simp
    have hiff : ∀ x, x ∈ (dictKeys (ms.foldl datasetPercStep [])).filter
        (fun k => decide (k.1 = t ∧ k.2 = a))
        ↔ x ∈ [((t, a) : TensorId × Axes)] := by
      intro x
      rw [List.mem_filter]
      constructor
      · rintro ⟨_, hkey⟩
        simp only [decide_eq_true_eq] at hkey
        obtain ⟨h1, h2⟩ := hkey
        simp [Prod.ext_iff, h1, h2]
      · intro hx
        have hx2 : x = ((t, a) : TensorId × Axes) := by simpa using hx
        subst hx2
        exact ⟨(mem_keys_datasetPerc_iff ms (t, a)).mpr hreq, by simp⟩
    have hperm := (List.perm_ext_iff_of_nodup hnd hone).mpr hiff
    rw [hperm.length_eq]
    rfl
  · intro hreq
    rw [List.countP_eq_zero]
    intro k hk hkey
    simp only [decide_eq_true_eq] at hkey
    obtain ⟨h1, h2⟩ := hkey
    obtain ⟨nn, hmem⟩ := (mem_keys_datasetPerc_iff ms k).mp hk
    rw [h1, h2] at hmem
    exact hreq ⟨nn, hmem⟩

/-- Counterexample to claim C1 as stated: requesting a SampleMean and a
SampleVar for the same key yields three sample calculators, not exactly
one; every one of them is a MeanVarStdCalculator for that key, because the
emission loop appends one calculator per element of the forced
mean-std-var descriptor triple. -/
theorem C1_counterexample :
    ((get_measure_calculators false
        [Measure.sampleMean "t" none, Measure.sampleVar "t" none]).1).length = 3
    ∧ ¬(((get_measure_calculators false
        [Measure.sampleMean "t" none, Measure.sampleVar "t" none]).1).length = 1)
    ∧ ∀ c ∈ (get_measure_calculators false
          [Measure.sampleMean "t" none, Measure.sampleVar "t" none]).1,
        c = SCalc.meanVarStd "t" none := by
  refine ⟨by decide, by decide, by decide⟩

/-- Claim C1 (amended): for every requested collection and every
(tensor_id, axes) key, in each scope: a var/std request creates exactly
three MeanVarStdCalculator instances for the key (one per element of the
forced mean-std-var descriptor triple) and suppresses the standalone mean
calculator; a mean request with no var/std for the key creates exactly one
standalone mean calculator; percentile requests create exactly one
percentile calculator per requested key; keys never requested get no
calculator. -/
theorem C1_planner_dedup (crick : Bool) (ms : List Measure) (t : TensorId) (a : Axes) :
    ((Measure.sampleVar t a ∈ ms ∨ Measure.sampleStd t a ∈ ms) →
        (get_measure_calculators crick ms).1.countP (isSampleMVSCalcFor t a) = 3)
    ∧ (¬(Measure.sampleVar t a ∈ ms ∨ Measure.sampleStd t a ∈ ms) →
        (get_measure_calculators crick ms).1.countP (isSampleMVSCalcFor t a) = 0)
    ∧ ((Measure.sampleMean t a ∈ ms
          ∧ ¬(Measure.sampleVar t a ∈ ms ∨ Measure.sampleStd t a ∈ ms)) →
        (get_measure_calculators crick ms).1.countP (isSampleMeanCalcFor t a) = 1)
    ∧ (¬(Measure.sampleMean t a ∈ ms
          ∧ ¬(Measure.sampleVar t a ∈ ms ∨ Measure.sampleStd t a ∈ ms)) →
        (get_measure_calculators crick ms).1.countP (isSampleMeanCalcFor t a) = 0)
    ∧ ((∃ nn, Measure.samplePercentile nn t a ∈ ms) →
        (get_measure_calculators crick ms).1.countP (isSamplePercCalcFor t a) = 1)
    ∧ (¬(∃ nn, Measure.samplePercentile nn t a ∈ ms) →
        (get_measure_calculators crick ms).1.countP (isSamplePercCalcFor t a) = 0)
    ∧ ((Measure.datasetVar t a ∈ ms ∨ Measure.datasetStd t a ∈ ms) →
        (get_measure_calculators crick ms).2.countP (isDatasetMVSCalcFor t a) = 3)
    ∧ (¬(Measure.datasetVar t a ∈ ms ∨ Measure.datasetStd t a ∈ ms) →
        (get_measure_calculators crick ms).2.countP (isDatasetMVSCalcFor t a) = 0)
    ∧ ((Measure.datasetMean t a ∈ ms
          ∧ ¬(Measure.datasetVar t a ∈ ms ∨ Measure.datasetStd t a ∈ ms)) →
        (get_measure_calculators crick ms).2.countP (isDatasetMeanCalcFor t a) = 1)
    ∧ (¬(Measure.datasetMean t a ∈ ms
          ∧ ¬(Measure.datasetVar t a ∈ ms ∨ Measure.datasetStd t a ∈ ms)) →
        (get_measure_calculators crick ms).2.countP (isDatasetMeanCalcFor t a) = 0)
    ∧ ((∃ nn, Measure.datasetPercentile nn t a ∈ ms) →
        (get_measure_calculators crick ms).2.countP (isDatasetPercCalcFor t a) = 1)
    ∧ (¬(∃ nn, Measure.datasetPercentile nn t a ∈ ms) →
        (get_measure_calculators crick ms).2.countP (isDatasetPercCalcFor t a) = 0) := by
  refine ⟨?_, ?_, ?_, ?_, ?_, ?_, ?_, ?_, ?_, ?_, ?_, ?_⟩
  · intro h
    rw [planner_sample_mvs_count]
    exact (countP_key_sampleMVS ms t a).1 h
  · intro h
    rw [planner_sample_mvs_count]
    exact (countP_key_sampleMVS ms t a).2 h
  · intro h
    rw [planner_sample_mean_count]
    exact (countP_key_sampleMean ms t a).1 h
  · intro h
    rw [planner_sample_mean_count]
    exact (countP_key_sampleMean ms t a).2 h
  · intro h
    rw [planner_sample_perc_count]
    exact (countP_key_samplePerc ms t a).1 h
  · intro h
    rw [planner_sample_perc_count]
    exact (countP_key_samplePerc ms t a).2 h
  · intro h
    rw [planner_dataset_mvs_count]
    exact (countP_key_datasetMVS ms t a).1 h
  · intro h
    rw [planner_dataset_mvs_count]
    exact (countP_key_datasetMVS ms t a).2 h
  · intro h
    rw [planner_dataset_mean_count]
    exact (countP_key_datasetMean ms t a).1 h
  · intro h
    rw [planner_dataset_mean_count]
    exact (countP_key_datasetMean ms t a).2 h
  · intro h
    rw [planner_dataset_perc_count]
    exact (countP_key_datasetPerc ms t a).1 h
  · intro h
    rw [planner_dataset_perc_count]
    exact (countP_key_datasetPerc ms t a).2 h

/-- Witness for C1 at concrete requests: a mean plus a var for one key
give three joint calculators and no standalone mean calculator; two
percentile ranks for one key give one percentile calculator; a dataset
std alone gives three joint dataset calculators. -/
theorem C1_planner_dedup_witness :
    (Measure.sampleVar "t" none
        ∈ [Measure.sampleMean "t" none, Measure.sampleVar "t" none]
      ∨ Measure.sampleStd "t" none
        ∈ [Measure.sampleMean "t" none, Measure.sampleVar "t" none])
    ∧ (get_measure_calculators false
        [Measure.sampleMean "t" none, Measure.sampleVar "t" none]).1.countP
          (isSampleMVSCalcFor "t" none) = 3
    ∧ (get_measure_calculators false
        [Measure.sampleMean "t" none, Measure.sampleVar "t" none]).1.countP
          (isSampleMeanCalcFor "t" none) = 0
    ∧ (get_measure_calculators false
        [Measure.samplePercentile 50 "t" none, Measure.samplePercentile 0 "t" none]).1.countP
          (isSamplePercCalcFor "t" none) = 1
    ∧ (get_measure_calculators true [Measure.datasetStd "x" none]).2.countP
          (isDatasetMVSCalcFor "x" none) = 3 := by
  refine ⟨by decide, ?_, ?_, ?_, ?_⟩
  · exact (C1_planner_dedup false
      [Measure.sampleMean "t" none, Measure.sampleVar "t" none] "t" none).1 (by decide)
  · exact (C1_planner_dedup false
      [Measure.sampleMean "t" none, Measure.sampleVar "t" none] "t" none).2.2.2.1
      (by decide)
  · exact (C1_planner_dedup false
      [Measure.samplePercentile 50 "t" none, Measure.samplePercentile 0 "t" none]
      "t" none).2.2.2.2.1 ⟨50, by decide⟩
  · exact (C1_planner_dedup true [Measure.datasetStd "x" none] "x" none).2.2.2.2.2.2.1
      (by decide)
